import Mathlib

/-!
# Intrusive profiler: trace buffers, record layout and the recording API

A shallow embedding of `include/profiler.h` and `src/profiler.cpp`.

* Bytes are natural numbers below 256; wider machine integers are natural
  numbers reduced modulo `2 ^ w` at the point where the program stores them.
* The memory behind `outputBuffer` is a function from offsets to bytes.  Only the
  offsets below `bufferSize` belong to the allocation made by `new`; a `memcpy`
  whose range leaves the allocation has no defined result, so the operations
  that perform one return `none`.
* The backing file records the bytes transferred so far and the number of
  `WriteFile` calls made on it.  How many bytes one call transfers is decided by
  the platform (`Platform.transfer`), never more than the number requested.
* The three padding bytes of a `RawEntry` are indeterminate, and every `RawEntry` is
  a stack object of its own: the platform gives the padding of each one
  (`Platform.stackGarbage`), by the file and the stream position of its record.
* The retry loop of `unprotectedFlush` may run forever, so it is driven by a
  fuel argument: `none` also stands for "has not returned within the fuel".
* Operations run to completion, one after the other, except in the section on two
  threads inside `write`, where `write` is cut into the steps between which another
  thread can run and `flushLock` is modelled by its owner.
-/

namespace Engine.Profiler

/-! ## Platform -/

/-- The parts of the operating system the profiler observes. -/
structure Platform where
  /-- Number of bytes `WriteFile` moves when asked, on the file at `path`, at its
  `call`-th call, for `requested` bytes (0 when the call fails). -/
  transfer : String → Nat → Nat → Nat
  /-- Value returned by `QueryPerformanceFrequency`. -/
  frequency : Nat
  /-- The three indeterminate bytes that sit between `RawEntry::type` and
  `RawEntry::integralData` in the `RawEntry` object that is built on the stack for the
  record that follows `offset` earlier bytes in the stream of the file at `path`.  Every
  `RawEntry` is a stack object of its own, so these bytes may differ from one record to
  the next. -/
  stackGarbage : String → Nat → Nat × Nat × Nat
  /-- The indeterminate contents of an array returned by `new boost::uint8_t[n]`. -/
  freshMemory : Nat → Nat

/-- The number of values of a `DWORD`. -/
def DWORD_RANGE : Nat := 2 ^ 32

/-- The file behind a `HANDLE` returned by `CreateFileA`. -/
structure OutputFile where
  path : String
  written : List Nat
  calls : Nat

/-- Embeds `CreateFileA(path, GENERIC_WRITE, 0, nullptr, CREATE_ALWAYS, ...)`: an empty file. -/
def CreateFileA (path : String) : OutputFile :=
  { path := path, written := [], calls := 0 }

/-- The `n` bytes of memory starting at offset `off`. -/
def readBytes (mem : Nat → Nat) (off n : Nat) : List Nat :=
  (List.range n).map (fun i => mem (off + i))

/-- Embeds `memcpy(mem + off, bytes, bytes.length)`. -/
def memcpy (mem : Nat → Nat) (off : Nat) (bytes : List Nat) : Nat → Nat :=
  fun a => if off ≤ a ∧ a < off + bytes.length then bytes.getD (a - off) 0 else mem a

/-- Embeds `WriteFile(file, mem + off, n, &count, nullptr)`: the byte count is passed as a
`DWORD`; the result is the file and the value stored in `count`. -/
def WriteFile (env : Platform) (file : OutputFile) (mem : Nat → Nat) (off n : Nat) :
    OutputFile × Nat :=
  let requested := n % DWORD_RANGE
  let count := min (env.transfer file.path file.calls requested) requested
  ({ file with written := file.written ++ readBytes mem off count, calls := file.calls + 1 },
    count)

/-! ## RawEntry -/

/-- Embeds `typedef boost::uint32_t Handle`. -/
abbrev Handle := Nat

/-- The `k` low-order bytes of `v`, least significant first: the object
representation of a `k`-byte unsigned integer holding `v` on x86. -/
def leBytes : Nat → Nat → List Nat
  | 0, _ => []
  | k + 1, v => v % 256 :: leBytes k (v / 256)

/-- Embeds `strlen`: the number of characters before the first NUL.  A C string is given
by the characters found at its address; the list's end stands for a NUL. -/
def strlen (chars : List Nat) : Nat :=
  (chars.takeWhile (fun c => c != 0)).length

namespace Detail

/-- Embeds `union RawEntry::VariantData`, by the member that was set. -/
inductive VariantData where
  /-- Set in IDENTIFIER types: the characters at `const char * name`. -/
  | name (chars : List Nat)
  /-- Set in FUNCTION and EVENT types. -/
  | time (t : Nat)

/-- Embeds `struct RawEntry`.  `padding` is the content of the three bytes the compiler
leaves between `type` (offset 0) and `integralData` (offset 4); `variantData`
starts at offset 8 and `sizeof(RawEntry)` is 16. -/
structure RawEntry where
  type : Nat
  padding : Nat × Nat × Nat
  integralData : Nat
  variantData : VariantData

namespace RawEntry

def ENTRY_FUNCTION_IDENTIFIER : Nat := 0
def ENTRY_EVENT_IDENTIFIER : Nat := 1
def ENTRY_FUNCTION_ENTER : Nat := 2
def ENTRY_FUNCTION_LEAVE : Nat := 3
def ENTRY_EVENT : Nat := 4
def ENTRY_FREQUENCY : Nat := 5
def ENTRY_MAIN_THREAD_IDENTIFIER : Nat := 6

/-- The 16 bytes of a `RawEntry` object whose union holds `time`, as `memcpy`
reads them.  (The bytes of a `name` pointer are not modelled.) -/
def objectBytes (e : RawEntry) : Option (List Nat) :=
  match e.variantData with
  | .time t =>
    some (leBytes 1 e.type ++
      [e.padding.1 % 256, e.padding.2.1 % 256, e.padding.2.2 % 256] ++
      leBytes 4 e.integralData ++ leBytes 8 t)
  | .name _ => none

end RawEntry

end Detail

/-! ## ThreadProfiler -/

namespace Detail

/-- The data members of `ThreadProfiler` (the lock apart). -/
structure ThreadProfiler where
  outputFile : OutputFile
  outputBuffer : Nat → Nat
  currentBytesWritten : Nat
  bufferSize : Nat
  threadIdentifier : Nat

namespace ThreadProfiler

/-- The bytes appended to the buffer and not yet flushed. -/
def pending (st : ThreadProfiler) : List Nat :=
  readBytes st.outputBuffer 0 st.currentBytesWritten

/-- The stream of a buffer: what reached the file, then what is still pending. -/
def stream (st : ThreadProfiler) : List Nat :=
  st.outputFile.written ++ st.pending

/-- The padding bytes of the `RawEntry` object that is built next for this buffer: the
stack bytes found for the record at the current end of the buffer's stream. -/
def nextPadding (env : Platform) (st : ThreadProfiler) : Nat × Nat × Nat :=
  env.stackGarbage st.outputFile.path
    (st.outputFile.written.length + st.currentBytesWritten)

/-- One evaluation of the loop condition of `unprotectedFlush` and, when it holds,
of the loop body.  The loop variables are `offset` and `count`. -/
def flushStep (env : Platform) (st : ThreadProfiler) (offset count : Nat) :
    Option (ThreadProfiler × Nat × Nat) :=
  if offset + count != st.currentBytesWritten then
    let offset1 := offset + count
    let r := WriteFile env st.outputFile st.outputBuffer offset1
      (st.currentBytesWritten - offset1)
    some ({ st with outputFile := r.1 }, offset1, r.2)
  else
    none

/-- The `while` loop of `unprotectedFlush`; `none` when the fuel runs out first. -/
def flushLoop (env : Platform) : Nat → ThreadProfiler → Nat → Nat → Option ThreadProfiler
  | 0, _, _, _ => none
  | fuel + 1, st, offset, count =>
    match flushStep env st offset count with
    | some (st1, offset1, count1) => flushLoop env fuel st1 offset1 count1
    | none => some st

/-- Embeds `ThreadProfiler::unprotectedFlush`. -/
def unprotectedFlush (env : Platform) (fuel : Nat) (st : ThreadProfiler) :
    Option ThreadProfiler :=
  match flushLoop env fuel st 0 0 with
  | some st1 => some { st1 with currentBytesWritten := 0 }
  | none => none

/-- Embeds `ThreadProfiler::flush`: `lock(); unprotectedFlush(); unlock();`. -/
def flush (env : Platform) (fuel : Nat) (st : ThreadProfiler) : Option ThreadProfiler :=
  unprotectedFlush env fuel st

/-- The loop variables after `n` passes through the loop body (`none` once the
loop has been left). -/
def flushIter (env : Platform) :
    Nat → ThreadProfiler → Nat → Nat → Option (ThreadProfiler × Nat × Nat)
  | 0, st, offset, count => some (st, offset, count)
  | n + 1, st, offset, count =>
    match flushStep env st offset count with
    | some (st1, offset1, count1) => flushIter env n st1 offset1 count1
    | none => none

/-- Embeds `unprotectedWrite`: `memcpy(outputBuffer + currentBytesWritten, ...)` followed by
`currentBytesWritten += ...`, for the object whose bytes are `bytes`.  The copy is
only defined while it stays inside the `bufferSize` bytes of the allocation. -/
def unprotectedWrite (st : ThreadProfiler) (bytes : List Nat) : Option ThreadProfiler :=
  if st.currentBytesWritten + bytes.length ≤ st.bufferSize then
    some { st with
      outputBuffer := memcpy st.outputBuffer st.currentBytesWritten bytes,
      currentBytesWritten := st.currentBytesWritten + bytes.length }
  else
    none

/-- Embeds `ThreadProfiler::predictWriteEntry`. -/
def predictWriteEntry (env : Platform) (fuel : Nat) (st : ThreadProfiler) (bytes : Nat) :
    Option ThreadProfiler :=
  if st.currentBytesWritten + 1 + 4 + bytes ≥ st.bufferSize then
    flush env fuel st
  else
    some st

/-- Embeds `ThreadProfiler::write`. -/
def write (env : Platform) (fuel : Nat) (st : ThreadProfiler) (entry : RawEntry) :
    Option ThreadProfiler :=
  if entry.type = RawEntry.ENTRY_FUNCTION_IDENTIFIER ∨
      entry.type = RawEntry.ENTRY_EVENT_IDENTIFIER then
    -- These events use the name field.
    match entry.variantData with
    | .name chars =>
      let len := strlen chars
      -- `if (len > 255) { /* Error case. */ }`: the body is empty.
      match predictWriteEntry env fuel st (1 + len) with
      | none => none
      | some st0 =>
        let byteLength := len % 256
        match unprotectedWrite st0 (leBytes 1 entry.type) with
        | none => none
        | some st1 =>
          match unprotectedWrite st1 (leBytes 4 entry.integralData) with
          | none => none
          | some st2 =>
            match unprotectedWrite st2 [byteLength] with
            | none => none
            | some st3 => unprotectedWrite st3 (chars.take len)
    | .time _ => none -- `strlen` of a union that holds no pointer
  else
    -- Everything else uses the time field.
    match predictWriteEntry env fuel st 8 with
    | none => none
    | some st0 =>
      match entry.objectBytes with
      | none => none
      | some bytes => unprotectedWrite st0 bytes

/-- Embeds `ThreadProfiler::enter`. -/
def enter (env : Platform) (fuel : Nat) (st : ThreadProfiler) (id : Handle) (time : Nat) :
    Option ThreadProfiler :=
  write env fuel st
    { type := RawEntry.ENTRY_FUNCTION_ENTER, padding := st.nextPadding env,
      integralData := id, variantData := .time time }

/-- Embeds `ThreadProfiler::leave`. -/
def leave (env : Platform) (fuel : Nat) (st : ThreadProfiler) (id : Handle) (time : Nat) :
    Option ThreadProfiler :=
  write env fuel st
    { type := RawEntry.ENTRY_FUNCTION_LEAVE, padding := st.nextPadding env,
      integralData := id, variantData := .time time }

/-- Embeds `ThreadProfiler::raise`. -/
def raise (env : Platform) (fuel : Nat) (st : ThreadProfiler) (id : Handle) (time : Nat) :
    Option ThreadProfiler :=
  write env fuel st
    { type := RawEntry.ENTRY_EVENT, padding := st.nextPadding env,
      integralData := id, variantData := .time time }

/-- The object a constructor has set up when it reaches `write(freqEntry)`: the
file at `path` opened, `outputBufferLength` bytes allocated, the cursor at 0. -/
def fresh (env : Platform) (outputBufferLength : Nat) (path : String) (tid : Nat) :
    ThreadProfiler :=
  { outputFile := CreateFileA path, outputBuffer := env.freshMemory,
    currentBytesWritten := 0, bufferSize := outputBufferLength, threadIdentifier := tid }

/-- The part both constructors share: set up the object and write the frequency
entry.  (The default constructor also registers the object in `activeThreads`.) -/
def construct (env : Platform) (fuel : Nat) (outputBufferLength : Nat) (path : String)
    (tid : Nat) : Option ThreadProfiler :=
  write env fuel (fresh env outputBufferLength path tid)
    { type := RawEntry.ENTRY_FREQUENCY,
      padding := (fresh env outputBufferLength path tid).nextPadding env,
      integralData := 0, variantData := .time env.frequency }

/-- Successive calls of `write` on one buffer, in list order. -/
def writeAll (env : Platform) (fuel : Nat) :
    ThreadProfiler → List RawEntry → Option ThreadProfiler
  | st, [] => some st
  | st, entry :: entries =>
    match write env fuel st entry with
    | some st1 => writeAll env fuel st1 entries
    | none => none

end ThreadProfiler
end Detail

/-! ## Globals and the recording API -/

/-- Embeds `struct Settings`. -/
structure Settings where
  outputDirectory : String
  outputBufferLength : Nat
  useCompression : Bool

/-- The variables of the anonymous namespace of `profiler.cpp`.  `tspProfiler` gives
each thread (by thread id) its object, if any; the pointers in `activeThreads` are
represented by the id of the thread that owns the object; `eventFile` is `none`
while the pointer is null. -/
structure Globals where
  globalSettings : Settings
  currentIdentifier : Int
  tspProfiler : Nat → Option Detail.ThreadProfiler
  eventFile : Option Detail.ThreadProfiler
  activeThreads : List Nat

/-- The zero-initialised globals at program start. -/
def Globals.startup : Globals :=
  { globalSettings := { outputDirectory := "", outputBufferLength := 0, useCompression := false },
    currentIdentifier := 0,
    tspProfiler := fun _ => none,
    eventFile := none,
    activeThreads := [] }

/-- The value a `long long` holds after an arithmetic result `v` wraps. -/
def wrapInt64 (v : Int) : Int :=
  (v + 2 ^ 63) % 2 ^ 64 - 2 ^ 63

/-- Embeds `allocateID`: `InterlockedIncrement64` then `static_cast<Handle>`. -/
def allocateID (g : Globals) : Handle × Globals :=
  let v := wrapInt64 (g.currentIdentifier + 1)
  ((v % 2 ^ 32).toNat, { g with currentIdentifier := v })

/-- Embeds `ThreadProfiler::ThreadProfiler()` run by thread `tid`, followed by
`tspProfiler.reset(...)` with the new object. -/
def resetThreadProfiler (env : Platform) (fuel : Nat) (g : Globals) (tid : Nat) :
    Option Globals :=
  match Detail.ThreadProfiler.construct env fuel g.globalSettings.outputBufferLength
      (g.globalSettings.outputDirectory ++ "/" ++ toString tid) tid with
  | none => none
  | some tp =>
    some { g with
      tspProfiler := Function.update g.tspProfiler tid (some tp),
      activeThreads := g.activeThreads ++ [tid] }

/-- Embeds `class Entry`. -/
structure Entry where
  identifier : Handle

/-- Embeds `Entry::Entry(const char * name)` run by thread `tid`. -/
def Entry.construct (env : Platform) (fuel : Nat) (g : Globals) (tid : Nat)
    (name : List Nat) : Option (Entry × Globals) :=
  let (identifier, g1) := allocateID g
  let created :=
    if (g1.tspProfiler tid).isNone then resetThreadProfiler env fuel g1 tid else some g1
  match created with
  | none => none
  | some g2 =>
    match g2.eventFile with
    | none => none
    | some ef =>
      match ef.write env fuel
          { type := Detail.RawEntry.ENTRY_FUNCTION_IDENTIFIER, padding := ef.nextPadding env,
            integralData := identifier, variantData := .name name } with
      | none => none
      | some ef1 => some ({ identifier := identifier }, { g2 with eventFile := some ef1 })

/-- Embeds `Entry::start` run by thread `tid` when `QueryPerformanceCounter` gives `time`. -/
def Entry.start (env : Platform) (fuel : Nat) (e : Entry) (g : Globals) (tid time : Nat) :
    Option Globals :=
  match g.tspProfiler tid with
  | none => none
  | some tp =>
    match tp.enter env fuel e.identifier time with
    | none => none
    | some tp1 => some { g with tspProfiler := Function.update g.tspProfiler tid (some tp1) }

/-- Embeds `Entry::stop` run by thread `tid` when `QueryPerformanceCounter` gives `time`. -/
def Entry.stop (env : Platform) (fuel : Nat) (e : Entry) (g : Globals) (tid time : Nat) :
    Option Globals :=
  match g.tspProfiler tid with
  | none => none
  | some tp =>
    match tp.leave env fuel e.identifier time with
    | none => none
    | some tp1 => some { g with tspProfiler := Function.update g.tspProfiler tid (some tp1) }

/-- Embeds `initialize(settings)` run by thread `tid` when `time(nullptr)` gives `wallclock`. -/
def initializeProfiler (env : Platform) (fuel : Nat) (g : Globals) (settings : Settings)
    (tid wallclock : Nat) : Option Globals :=
  let directory := settings.outputDirectory ++ "/" ++ toString wallclock
  let g1 := { g with
    globalSettings := { settings with outputDirectory := directory },
    currentIdentifier := 0 }
  match Detail.ThreadProfiler.construct env fuel g1.globalSettings.outputBufferLength
      (g1.globalSettings.outputDirectory ++ "/" ++ "events") tid with
  | none => none
  | some ef =>
    match ef.write env fuel
        { type := Detail.RawEntry.ENTRY_MAIN_THREAD_IDENTIFIER, padding := ef.nextPadding env,
          integralData := tid, variantData := .time 0 } with
    | none => none
    | some ef1 => some { g1 with eventFile := some ef1 }

/-- Embeds `allocateEvent(eventName)`. -/
def allocateEvent (env : Platform) (fuel : Nat) (g : Globals) (eventName : List Nat) :
    Option (Handle × Globals) :=
  let (id, g1) := allocateID g
  match g1.eventFile with
  | none => none
  | some ef =>
    match ef.write env fuel
        { type := Detail.RawEntry.ENTRY_EVENT_IDENTIFIER, padding := ef.nextPadding env,
          integralData := id, variantData := .name eventName } with
    | none => none
    | some ef1 =>
      match ef1.flush env fuel with
      | none => none
      | some ef2 => some (id, { g1 with eventFile := some ef2 })

/-- Embeds `raiseGlobalEvent(ev)` when `QueryPerformanceCounter` gives `now`. -/
def raiseGlobalEvent (env : Platform) (fuel : Nat) (g : Globals) (ev : Handle) (now : Nat) :
    Option Globals :=
  match g.eventFile with
  | none => none
  | some ef =>
    match ef.raise env fuel ev now with
    | none => none
    | some ef1 => some { g with eventFile := some ef1 }

/-- The loop of the global `flush` over the copied pointers. -/
def flushEach (env : Platform) (fuel : Nat) : Globals → List Nat → Option Globals
  | g, [] => some g
  | g, p :: ps =>
    match g.tspProfiler p with
    | none => none
    | some tp =>
      match tp.flush env fuel with
      | none => none
      | some tp1 =>
        flushEach env fuel { g with tspProfiler := Function.update g.tspProfiler p (some tp1) } ps

/-- The global `flush()`: copy `activeThreads`, then flush each copied buffer. -/
def flush (env : Platform) (fuel : Nat) (g : Globals) : Option Globals :=
  flushEach env fuel g g.activeThreads

/-- The stream of thread `tid`, empty while the thread has no buffer. -/
def Globals.threadStream (g : Globals) (tid : Nat) : List Nat :=
  match g.tspProfiler tid with
  | some tp => tp.stream
  | none => []

/-- The events stream, empty while `eventFile` is null. -/
def Globals.eventStream (g : Globals) : List Nat :=
  match g.eventFile with
  | some ef => ef.stream
  | none => []

/-! ## Handles, thread-local events and teardown -/

/-- The result of the allocation that follows `k` earlier calls of `allocateID`,
starting from the globals `g`. -/
def allocateNth : Nat → Globals → Handle × Globals
  | 0, g => allocateID g
  | k + 1, g => allocateNth k (allocateID g).2

/-- Embeds `raiseThreadLocalEvent(ev)` run by thread `tid` when
`QueryPerformanceCounter` gives `now`. -/
def raiseThreadLocalEvent (env : Platform) (fuel : Nat) (g : Globals) (tid : Nat)
    (ev : Handle) (now : Nat) : Option Globals :=
  match g.tspProfiler tid with
  | none => none
  | some tp =>
    match tp.raise env fuel ev now with
    | none => none
    | some tp1 => some { g with tspProfiler := Function.update g.tspProfiler tid (some tp1) }

/-- Embeds `ThreadProfiler::~ThreadProfiler` for an object that is not registered in
`activeThreads` (the events buffer): `flush()`, then the buffer is freed and the file
closed.  The result is the file as it is left behind. -/
def Detail.ThreadProfiler.destroy (env : Platform) (fuel : Nat) (st : Detail.ThreadProfiler) :
    Option OutputFile :=
  match st.flush env fuel with
  | none => none
  | some st1 => some st1.outputFile

/-- Embeds `deinitalize()`: the global `flush()`, then `delete eventFile`.  The result
is the globals and the events file as the destructor leaves it.  Afterwards no object
is behind `eventFile`; without such an object (before `initialize`, or after an earlier
`deinitalize`) the call has no defined result. -/
def deinitalize (env : Platform) (fuel : Nat) (g : Globals) : Option (Globals × OutputFile) :=
  match flush env fuel g with
  | none => none
  | some g1 =>
    match g1.eventFile with
    | none => none
    | some ef =>
      match ef.destroy env fuel with
      | none => none
      | some file => some ({ g1 with eventFile := none }, file)

/-! ## Two threads inside `write` on one buffer -/

/-- The number `write` passes to `predictWriteEntry` for `entry`. -/
def predictedBytes (entry : Detail.RawEntry) : Option Nat :=
  if entry.type = Detail.RawEntry.ENTRY_FUNCTION_IDENTIFIER ∨
      entry.type = Detail.RawEntry.ENTRY_EVENT_IDENTIFIER then
    match entry.variantData with
    | .name chars => some (1 + strlen chars)
    | .time _ => none
  else
    some 8

/-- The statements of `write` that follow `predictWriteEntry`, executed while the
`ScopedCriticalSection` holds `flushLock`. -/
def appendEntry (st : Detail.ThreadProfiler) (entry : Detail.RawEntry) :
    Option Detail.ThreadProfiler :=
  if entry.type = Detail.RawEntry.ENTRY_FUNCTION_IDENTIFIER ∨
      entry.type = Detail.RawEntry.ENTRY_EVENT_IDENTIFIER then
    match entry.variantData with
    | .name chars =>
      let len := strlen chars
      let byteLength := len % 256
      match st.unprotectedWrite (leBytes 1 entry.type) with
      | none => none
      | some st1 =>
        match st1.unprotectedWrite (leBytes 4 entry.integralData) with
        | none => none
        | some st2 =>
          match st2.unprotectedWrite [byteLength] with
          | none => none
          | some st3 => st3.unprotectedWrite (chars.take len)
    | .time _ => none
  else
    match entry.objectBytes with
    | none => none
    | some bytes => st.unprotectedWrite bytes

/-- Where a thread stands inside `ThreadProfiler::write`. -/
inductive WritePc where
  /-- About to evaluate the condition of `predictWriteEntry`; `flushLock` is not held. -/
  | check
  /-- The condition held: about to call `lock()` in `flush()`. -/
  | flushLock
  /-- Inside `flush()`, holding `flushLock`: `unprotectedFlush(); unlock();`. -/
  | flushBody
  /-- Back in `write`: about to construct the `ScopedCriticalSection`. -/
  | appendLock
  /-- Holding `flushLock`: the `unprotectedWrite` calls, then the end of the scope. -/
  | appendBody
  /-- The call of `write` has returned. -/
  | done
  deriving DecidableEq, Repr

/-- A thread that is executing `write(entry)`. -/
structure Writer where
  tid : Nat
  entry : Detail.RawEntry
  pc : WritePc

/-- A buffer that several threads write to, with the thread inside the critical
section `flushLock`, if any. -/
structure SharedBuffer where
  buffer : Detail.ThreadProfiler
  owner : Option Nat

/-- What one step of a thread leads to. -/
inductive StepResult where
  | next (w : Writer) (s : SharedBuffer)
  /-- The thread waits for `flushLock`, or has returned from `write`. -/
  | blocked
  /-- The step has no defined result (a copy past the end of the buffer, or a flush
  that did not return within the fuel). -/
  | undefined

/-- One step of a thread inside `write`. -/
def stepWrite (env : Platform) (fuel : Nat) (w : Writer) (s : SharedBuffer) : StepResult :=
  match w.pc with
  | .check =>
    match predictedBytes w.entry with
    | none => .undefined
    | some bytes =>
      if s.buffer.currentBytesWritten + 1 + 4 + bytes ≥ s.buffer.bufferSize then
        .next { w with pc := .flushLock } s
      else
        .next { w with pc := .appendLock } s
  | .flushLock =>
    if s.owner.isNone then .next { w with pc := .flushBody } { s with owner := some w.tid }
    else .blocked
  | .flushBody =>
    match s.buffer.unprotectedFlush env fuel with
    | none => .undefined
    | some b => .next { w with pc := .appendLock } { buffer := b, owner := none }
  | .appendLock =>
    if s.owner.isNone then .next { w with pc := .appendBody } { s with owner := some w.tid }
    else .blocked
  | .appendBody =>
    match appendEntry s.buffer w.entry with
    | none => .undefined
    | some b => .next { w with pc := .done } { buffer := b, owner := none }
  | .done => .blocked

/-- A single thread running `write` from its start, for at most `steps` steps; the
result is the buffer once the call has returned. -/
def runAlone (env : Platform) (fuel : Nat) :
    Nat → Writer → SharedBuffer → Option Detail.ThreadProfiler
  | 0, w, s => if w.pc = .done then some s.buffer else none
  | steps + 1, w, s =>
    if w.pc = .done then some s.buffer
    else
      match stepWrite env fuel w s with
      | .next w1 s1 => runAlone env fuel steps w1 s1
      | .blocked => none
      | .undefined => none

/-- Two threads `a` and `b` inside `write` on the same buffer. -/
structure Race where
  a : Writer
  b : Writer
  shared : SharedBuffer

/-- What a schedule leads to. -/
inductive RaceResult where
  | state (r : Race)
  | blocked
  | undefined

/-- The steps of `a` (for `true`) and `b` (for `false`) taken in the order of the
schedule. -/
def runSchedule (env : Platform) (fuel : Nat) : List Bool → Race → RaceResult
  | [], r => .state r
  | true :: rest, r =>
    match stepWrite env fuel r.a r.shared with
    | .next w s => runSchedule env fuel rest { r with a := w, shared := s }
    | .blocked => .blocked
    | .undefined => .undefined
  | false :: rest, r =>
    match stepWrite env fuel r.b r.shared with
    | .next w s => runSchedule env fuel rest { r with b := w, shared := s }
    | .blocked => .blocked
    | .undefined => .undefined

/-- The observable part of a race state: the cursor, the bytes in the file, the owner
of `flushLock`, and where the two threads stand. -/
def RaceResult.summary : RaceResult → Option (Nat × Nat × Option Nat × WritePc × WritePc)
  | .state r =>
    some (r.shared.buffer.currentBytesWritten, r.shared.buffer.outputFile.written.length,
      r.shared.owner, r.a.pc, r.b.pc)
  | .blocked => none
  | .undefined => none

/-- Whether the schedule ran into a step without defined result. -/
def RaceResult.isUndefined : RaceResult → Bool
  | .undefined => true
  | _ => false

/-! ## The bytes of a record, as `write` lays them out -/

/-- The 16 bytes `write` copies for an entry of kind `type` that uses the time field and
whose `RawEntry` object has the padding bytes `padding`. -/
def valueBytes (padding : Nat × Nat × Nat) (type handle value : Nat) : List Nat :=
  leBytes 1 type ++ [padding.1 % 256, padding.2.1 % 256, padding.2.2 % 256] ++
    leBytes 4 handle ++ leBytes 8 value

/-- The bytes of consecutive 16-byte records in the stream of the file at `path`, the
first one at stream offset `offset`; each record is given by its kind, handle and value
and carries the padding bytes of its own `RawEntry` object. -/
def valueRecords (env : Platform) (path : String) : Nat → List (Nat × Nat × Nat) → List Nat
  | _, [] => []
  | offset, (type, handle, value) :: rest =>
    valueBytes (env.stackGarbage path offset) type handle value ++
      valueRecords env path (offset + 16) rest

/-- The bytes `write` copies for an identifier entry of kind `type`. -/
def identifierBytes (type handle : Nat) (name : List Nat) : List Nat :=
  leBytes 1 type ++ leBytes 4 handle ++ [strlen name % 256] ++ name.take (strlen name)

/-- Capacities with which `n` 16-byte records can be written one after the other to an
empty buffer without a copy passing its end: one record fits, and either the capacity
check (which counts 13 bytes) fires before a copy would pass the end, or the buffer
holds all `n` records. -/
def RoomFor (n capacity : Nat) : Prop :=
  16 ≤ capacity ∧ (capacity % 16 ≤ 13 ∨ n ≤ capacity / 16)

/-- A buffer holding whole 16-byte records only, to which `n` more such records can be
written without a copy passing its end. -/
def RoomLeft (n : Nat) (tp : Detail.ThreadProfiler) : Prop :=
  tp.currentBytesWritten % 16 = 0 ∧ tp.currentBytesWritten ≤ tp.bufferSize ∧
    16 ≤ tp.bufferSize ∧
    (tp.bufferSize % 16 ≤ 13 ∨ tp.currentBytesWritten / 16 + n ≤ tp.bufferSize / 16)

/-- The buffer thread `tid` has once it has constructed an `Entry`: the one it had, or
else the one the default constructor builds for it. -/
def threadBufferOrNew (env : Platform) (fuel : Nat) (g : Globals) (tid : Nat) :
    Option Detail.ThreadProfiler :=
  match g.tspProfiler tid with
  | some tp => some tp
  | none =>
    Detail.ThreadProfiler.construct env fuel g.globalSettings.outputBufferLength
      (g.globalSettings.outputDirectory ++ "/" ++ toString tid) tid

/-- The stream of thread `tid`, or `other` while the thread has no buffer. -/
def Globals.threadStreamOr (g : Globals) (tid : Nat) (other : List Nat) : List Nat :=
  match g.tspProfiler tid with
  | some tp => tp.stream
  | none => other

/-! ## Sequences of calls -/

/-- Scope registrations made one after the other by thread `tid`: one `Entry` is
constructed per name; the result lists the entries in construction order. -/
def registerAll (env : Platform) (fuel : Nat) (tid : Nat) :
    Globals → List (List Nat) → Option (List Entry × Globals)
  | g, [] => some ([], g)
  | g, name :: names =>
    match Entry.construct env fuel g tid name with
    | none => none
    | some (e, g1) =>
      match registerAll env fuel tid g1 names with
      | none => none
      | some (es, g2) => some (e :: es, g2)

/-- One scope enter (`ScopedEntry`'s constructor) or leave (its destructor) on the
`scope`-th registered entry, at tick `time`. -/
structure ScopeCall where
  isEnter : Bool
  scope : Nat
  time : Nat

/-- The kind, handle and value of the record the call appends: a `FunctionEnter` (2)
or `FunctionLeave` (3) record for the handle of the entry it refers to. -/
def ScopeCall.record (entries : List Entry) (c : ScopeCall) : Nat × Nat × Nat :=
  (if c.isEnter then Detail.RawEntry.ENTRY_FUNCTION_ENTER
      else Detail.RawEntry.ENTRY_FUNCTION_LEAVE,
    match entries.get? c.scope with
      | some e => e.identifier
      | none => 0,
    c.time)

/-- Scope enters and leaves made one after the other by thread `tid` on the entries
`entries`. -/
def runCalls (env : Platform) (fuel : Nat) (tid : Nat) (entries : List Entry) :
    Globals → List ScopeCall → Option Globals
  | g, [] => some g
  | g, c :: cs =>
    match entries.get? c.scope with
    | none => none
    | some e =>
      match (if c.isEnter then e.start env fuel g tid c.time
          else e.stop env fuel g tid c.time) with
      | none => none
      | some g1 => runCalls env fuel tid entries g1 cs

/-- Thread `mainTid` initializes the profiler; thread `tid` then registers the scopes
`names` and performs `calls` on them. -/
def scopeSession (env : Platform) (fuel : Nat) (settings : Settings)
    (mainTid wallclock tid : Nat) (names : List (List Nat)) (calls : List ScopeCall) :
    Option (List Entry × Globals) :=
  match initializeProfiler env fuel Globals.startup settings mainTid wallclock with
  | none => none
  | some g1 =>
    match registerAll env fuel tid g1 names with
    | none => none
    | some (entries, g2) =>
      match runCalls env fuel tid entries g2 calls with
      | none => none
      | some g3 => some (entries, g3)

/-! ## Reading a stream back -/

/-- A record as a reader sees it. -/
inductive Record where
  | identifier (type handle : Nat) (name : List Nat)
  | value (type handle value : Nat)
  deriving DecidableEq, Repr

/-- The value of a little-endian byte string. -/
def fromLE : List Nat → Nat
  | [] => 0
  | b :: bs => b + 256 * fromLE bs

/-- A forward-only reader of one record in the layout `write` produces: identifier
records field by field, every other record as the 16 bytes of a `RawEntry` object,
whose bytes 1 to 3 are skipped. -/
def readRecord (bytes : List Nat) : Option (Record × List Nat) :=
  match bytes with
  | [] => none
  | type :: rest =>
    if type = 0 ∨ type = 1 then
      match rest with
      | h0 :: h1 :: h2 :: h3 :: len :: more =>
        if len ≤ more.length then
          some (.identifier type (fromLE [h0, h1, h2, h3]) (more.take len), more.drop len)
        else
          none
      | _ => none
    else
      match rest with
      | _ :: _ :: _ :: h0 :: h1 :: h2 :: h3 ::
          v0 :: v1 :: v2 :: v3 :: v4 :: v5 :: v6 :: v7 :: more =>
        some (.value type (fromLE [h0, h1, h2, h3])
          (fromLE [v0, v1, v2, v3, v4, v5, v6, v7]), more)
      | _ => none

/-- Reads records until the bytes are used up; `fuel` bounds the number of records. -/
def readStream : Nat → List Nat → Option (List Record)
  | 0, _ => none
  | fuel + 1, bytes =>
    if bytes.isEmpty then some []
    else
      match readRecord bytes with
      | none => none
      | some (r, rest) =>
        match readStream fuel rest with
        | none => none
        | some rs => some (r :: rs)

/-- Whether every enter and leave record (kinds 2 and 3) of `records` comes after a
function identifier record (kind 0) of the same handle; `declared` lists the handles
identified so far. -/
def selfDescribing (declared : List Nat) : List Record → Bool
  | [] => true
  | .identifier type handle _ :: rs =>
    selfDescribing (if type = 0 then handle :: declared else declared) rs
  | .value type handle _ :: rs =>
    (if type = 2 ∨ type = 3 then declared.contains handle else true) &&
      selfDescribing declared rs

/-- The record a reader gets from the 16 bytes `write` copies for an entry of the
given kind, handle and value: the handle as 32 bits, the value as 64 bits. -/
def Record.ofFields (r : Nat × Nat × Nat) : Record :=
  .value r.1 (r.2.1 % 2 ^ 32) (r.2.2 % 2 ^ 64)

/-- Whether some record is a function identifier record (kind 0). -/
def hasFunctionIdentifier (records : List Record) : Bool :=
  records.any (fun r =>
    match r with
    | .identifier type _ _ => type == 0
    | .value _ _ _ => false)

/-! ## The record layout of the specification -/

/-- Follows the specification (section 4.1), not the code: a non-identifier record is
the kind tag, the 4-byte little-endian handle and the 8-byte little-endian value, 13
bytes without padding. -/
def specValueRecord (type handle value : Nat) : List Nat :=
  leBytes 1 type ++ leBytes 4 handle ++ leBytes 8 value

/-- Follows the specification (section 4.1), not the code: an identifier record is
the kind tag, the 4-byte little-endian handle, one length byte and the name without
terminator. -/
def specIdentifierRecord (type handle : Nat) (name : List Nat) : List Nat :=
  leBytes 1 type ++ leBytes 4 handle ++ [name.length] ++ name

/-- Follows the specification (section 4.1), not the code: a forward-only reader of
one identifier record.  The result is the kind, the handle, the name, and the bytes
not consumed. -/
def decodeIdentifier (bytes : List Nat) : Option (Nat × Nat × List Nat × List Nat) :=
  match bytes with
  | type :: h0 :: h1 :: h2 :: h3 :: len :: rest =>
    if (type = 0 ∨ type = 1) ∧ len ≤ rest.length then
      some (type, fromLE [h0, h1, h2, h3], rest.take len, rest.drop len)
    else
      none
  | _ => none

/-! ## Behaviours of the write primitive -/

/-- Every call that asks for at least one byte transfers at least one byte. -/
def Progress (env : Platform) : Prop :=
  ∀ path call requested, 0 < requested → 0 < env.transfer path call requested

/-- A platform whose `WriteFile` always transfers everything it is asked for, and on
which every `RawEntry` finds the same bytes `stackGarbage` on the stack. -/
def fullWrites (frequency : Nat) (stackGarbage : Nat × Nat × Nat) : Platform :=
  { transfer := fun _ _ n => n, frequency := frequency,
    stackGarbage := fun _ _ => stackGarbage,
    freshMemory := fun _ => 0 }

/-- A platform whose `WriteFile` fails on every call, transferring nothing. -/
def brokenWrites (frequency : Nat) (stackGarbage : Nat × Nat × Nat) : Platform :=
  { transfer := fun _ _ _ => 0, frequency := frequency,
    stackGarbage := fun _ _ => stackGarbage,
    freshMemory := fun _ => 0 }

/-- A platform with full writes on which the `RawEntry` of the first record of a stream
finds the stack bytes 00 00 00 and the `RawEntry` of every later record 27 FF E3. -/
def variedStackPlatform : Platform :=
  { transfer := fun _ _ n => n, frequency := 1000,
    stackGarbage := fun _ offset => if offset = 0 then (0, 0, 0) else (39, 255, 227),
    freshMemory := fun _ => 0 }

/-- A platform whose `WriteFile` transfers one byte per call. -/
def shortWrites (frequency : Nat) (stackGarbage : Nat × Nat × Nat) : Platform :=
  { transfer := fun _ _ n => min n 1, frequency := frequency,
    stackGarbage := fun _ _ => stackGarbage,
    freshMemory := fun _ => 0 }

/-! ## Sample states -/

/-- A buffer of 8 bytes holding the three pending bytes 1, 2, 3, on an empty file. -/
def sampleBuffer : Detail.ThreadProfiler :=
  { outputFile := CreateFileA "profile/0/7",
    outputBuffer := memcpy (fun _ => 0) 0 [1, 2, 3],
    currentBytesWritten := 3, bufferSize := 8, threadIdentifier := 7 }

/-- A platform with full writes, frequency 1000 and the bytes AA BB CC as stack
garbage under every `RawEntry`. -/
def samplePlatform : Platform := fullWrites 1000 (170, 187, 204)

/-- The entry `ThreadProfiler::enter(1, 5)` builds on `samplePlatform`. -/
def sampleEnter : Detail.RawEntry :=
  { type := Detail.RawEntry.ENTRY_FUNCTION_ENTER, padding := (170, 187, 204),
    integralData := 1, variantData := .time 5 }

/-- A frequency entry as the constructors build it on `samplePlatform`. -/
def sampleFrequency : Detail.RawEntry :=
  { type := Detail.RawEntry.ENTRY_FREQUENCY, padding := (170, 187, 204),
    integralData := 0, variantData := .time 1000 }

/-- A function identifier entry for handle 1 whose name is 256 times the letter a. -/
def longNameEntry : Detail.RawEntry :=
  { type := Detail.RawEntry.ENTRY_FUNCTION_IDENTIFIER, padding := (170, 187, 204),
    integralData := 1, variantData := .name (List.replicate 256 97) }

/-- The characters of "tick". -/
def tickName : List Nat := [116, 105, 99, 107]

/-- The characters of "work". -/
def workName : List Nat := [119, 111, 114, 107]

/-- The settings of the example scenario: directory "out", 64-byte buffers. -/
def exampleSettings : Settings :=
  { outputDirectory := "out", outputBufferLength := 64, useCompression := false }

/-- The example scenario of the specification up to and including the global
`flush()`: thread 1 initializes and allocates the event "tick"; thread 7 registers
the scope "work", enters it at tick 10 and leaves it at tick 20; the event is raised
at tick 30; `flush()`. -/
def exampleScenario : Option Globals :=
  match initializeProfiler samplePlatform 65 Globals.startup exampleSettings 1 0 with
  | none => none
  | some g1 =>
    match allocateEvent samplePlatform 65 g1 tickName with
    | none => none
    | some (h, g2) =>
      match Entry.construct samplePlatform 65 g2 7 workName with
      | none => none
      | some (e, g3) =>
        match e.start samplePlatform 65 g3 7 10 with
        | none => none
        | some g4 =>
          match e.stop samplePlatform 65 g4 7 20 with
          | none => none
          | some g5 =>
            match raiseGlobalEvent samplePlatform 65 g5 h 30 with
            | none => none
            | some g6 => flush samplePlatform 65 g6

/-- The globals right after `initialize` in the example scenario. -/
def sampleGlobals : Globals :=
  (initializeProfiler samplePlatform 65 Globals.startup exampleSettings 1 0).getD
    Globals.startup

/-- The events buffer of `sampleGlobals`. -/
def sampleEventFile : Detail.ThreadProfiler :=
  sampleGlobals.eventFile.getD
    (Detail.ThreadProfiler.fresh samplePlatform 64 "out/0/events" 1)

/-- Enter the first registered scope at tick 10, leave it at tick 20. -/
def sampleCalls : List ScopeCall :=
  [{ isEnter := true, scope := 0, time := 10 }, { isEnter := false, scope := 0, time := 20 }]

/-- The platform `samplePlatform` at a call that finds the bytes DD EE FF on the
stack. -/
def otherStackPlatform : Platform := fullWrites 1000 (221, 238, 255)

/-- The globals after `initialize` with 48-byte buffers on thread 1. -/
def raceGlobals : Globals :=
  (initializeProfiler samplePlatform 49 Globals.startup
    { outputDirectory := "out", outputBufferLength := 48, useCompression := false } 1 0).getD
    Globals.startup

/-- The entry `ThreadProfiler::raise(1, time)` builds on `samplePlatform`. -/
def sampleRaise (time : Nat) : Detail.RawEntry :=
  { type := Detail.RawEntry.ENTRY_EVENT, padding := (170, 187, 204),
    integralData := 1, variantData := .time time }

/-- Threads 1 and 2 both enter `raiseGlobalEvent(1)`, at ticks 30 and 31, on the events
buffer of `raceGlobals`, which holds 32 of its 48 bytes. -/
def raceStart : Race :=
  { a := { tid := 1, entry := sampleRaise 30, pc := .check },
    b := { tid := 2, entry := sampleRaise 31, pc := .check },
    shared :=
      { buffer := raceGlobals.eventFile.getD
          (Detail.ThreadProfiler.fresh samplePlatform 48 "out/0/events" 1),
        owner := none } }

/-- The globals of the example scenario once thread 7 has registered the scope "work"
and entered it at tick 10: thread 7 is live with 32 pending bytes, and the events
buffer holds 42 pending bytes. -/
def sampleLiveGlobals : Globals :=
  ((Entry.construct samplePlatform 65 sampleGlobals 7 workName).bind
    (fun r => r.1.start samplePlatform 65 r.2 7 10)).getD Globals.startup

/-- The buffer of thread 7 in `sampleLiveGlobals`. -/
def sampleLiveBuffer : Detail.ThreadProfiler :=
  (sampleLiveGlobals.tspProfiler 7).getD
    (Detail.ThreadProfiler.fresh samplePlatform 64 "out/0/7" 7)

/-- The events buffer of `sampleLiveGlobals`. -/
def sampleLiveEventFile : Detail.ThreadProfiler :=
  sampleLiveGlobals.eventFile.getD
    (Detail.ThreadProfiler.fresh samplePlatform 64 "out/0/events" 1)

/-! ## Memory and file lemmas -/

open Detail Detail.ThreadProfiler

theorem readBytes_length (mem : Nat → Nat) (off n : Nat) :
    (readBytes mem off n).length = n := by
  simp [readBytes]

theorem readBytes_zero (mem : Nat → Nat) (off : Nat) : readBytes mem off 0 = [] := by
  simp [readBytes]

theorem readBytes_add (mem : Nat → Nat) (off a b : Nat) :
    readBytes mem off (a + b) = readBytes mem off a ++ readBytes mem (off + a) b := by
  simp only [readBytes, List.range_add, List.map_append, List.map_map]
  congr 1
  apply List.map_congr_left
  intro i _
  simp [Nat.add_assoc]

theorem readBytes_congr (m1 m2 : Nat → Nat) (off n : Nat)
    (h : ∀ a, off ≤ a → a < off + n → m1 a = m2 a) :
    readBytes m1 off n = readBytes m2 off n := by
  unfold readBytes
  apply List.map_congr_left
  intro i hi
  have hi2 : i < n := List.mem_range.mp hi
  exact h (off + i) (by omega) (by omega)

theorem readBytes_memcpy_below (mem : Nat → Nat) (off : Nat) (bytes : List Nat) :
    readBytes (memcpy mem off bytes) 0 off = readBytes mem 0 off := by
  apply readBytes_congr
  intro a _ ha
  have : ¬ (off ≤ a ∧ a < off + bytes.length) := by omega
  simp [memcpy, this]

theorem readBytes_memcpy_at (mem : Nat → Nat) (off : Nat) (bytes : List Nat) :
    readBytes (memcpy mem off bytes) off bytes.length = bytes := by
  apply List.ext_getElem
  · simp [readBytes]
  · intro i h1 h2
    have hi : i < bytes.length := h2
    simp [readBytes, memcpy, hi, List.getD_eq_getElem]

/-! ## The retry loop of `unprotectedFlush` -/

theorem flushLoop_spec (env : Platform) (hp : Progress env) :
    ∀ (fuel : Nat) (st : ThreadProfiler) (offset count : Nat),
      st.currentBytesWritten < DWORD_RANGE →
      offset + count ≤ st.currentBytesWritten →
      st.currentBytesWritten - (offset + count) < fuel →
      ∃ k, k ≤ st.currentBytesWritten - (offset + count) ∧
        flushLoop env fuel st offset count =
          some { st with outputFile :=
            { st.outputFile with
              written := st.outputFile.written ++
                readBytes st.outputBuffer (offset + count)
                  (st.currentBytesWritten - (offset + count)),
              calls := st.outputFile.calls + k } } := by
  intro fuel
  induction fuel with
  | zero => intro st offset count _ _ h; omega
  | succ fuel ih =>
    intro st offset count hdw hle hfuel
    by_cases hdone : offset + count = st.currentBytesWritten
    · refine ⟨0, Nat.zero_le _, ?_⟩
      simp [flushLoop, flushStep, hdone, readBytes_zero]
    · have hreq : 0 < st.currentBytesWritten - (offset + count) := by omega
      have hmod : (st.currentBytesWritten - (offset + count)) % DWORD_RANGE =
          st.currentBytesWritten - (offset + count) := Nat.mod_eq_of_lt (by omega)
      have hpos := hp st.outputFile.path st.outputFile.calls
        (st.currentBytesWritten - (offset + count)) hreq
      obtain ⟨c, hc⟩ : ∃ c, c = min (env.transfer st.outputFile.path st.outputFile.calls
          (st.currentBytesWritten - (offset + count)))
          (st.currentBytesWritten - (offset + count)) := ⟨_, rfl⟩
      have hc1 : 0 < c := by rw [hc]; exact lt_min hpos hreq
      have hc2 : c ≤ st.currentBytesWritten - (offset + count) := by
        rw [hc]; exact min_le_right _ _
      obtain ⟨k, hk, hrec⟩ := ih
        { st with outputFile :=
          { st.outputFile with
            written := st.outputFile.written ++ readBytes st.outputBuffer (offset + count) c,
            calls := st.outputFile.calls + 1 } }
        (offset + count) c hdw (by simp only; omega) (by simp only; omega)
      refine ⟨k + 1, by simp only at hk; omega, ?_⟩
      have hsplit : st.currentBytesWritten - (offset + count) =
          c + (st.currentBytesWritten - (offset + count + c)) := by omega
      simp only [flushLoop, flushStep, WriteFile, hmod, ← hc, bne_iff_ne, ne_eq, hdone,
        not_false_eq_true, ↓reduceIte]
      rw [hrec]
      simp only [List.append_assoc]
      conv_rhs => rw [hsplit, readBytes_add]
      simp [Nat.add_assoc, Nat.add_comm 1 k]

theorem flush_spec (env : Platform) (hp : Progress env) (fuel : Nat) (st : ThreadProfiler)
    (hdw : st.currentBytesWritten < DWORD_RANGE) (hfuel : st.currentBytesWritten < fuel) :
    ∃ k, k ≤ st.currentBytesWritten ∧
      ThreadProfiler.flush env fuel st =
        some { st with
          outputFile := { st.outputFile with
            written := st.outputFile.written ++ st.pending,
            calls := st.outputFile.calls + k },
          currentBytesWritten := 0 } := by
  obtain ⟨k, hk, h⟩ := flushLoop_spec env hp fuel st 0 0 hdw (by omega) (by omega)
  refine ⟨k, by omega, ?_⟩
  simp only [ThreadProfiler.flush, unprotectedFlush, h]
  simp [pending]

theorem flushIter_spec (env : Platform) :
    ∀ (n : Nat) (st st1 : ThreadProfiler) (offset count offset1 count1 : Nat),
      offset + count ≤ st.currentBytesWritten →
      flushIter env n st offset count = some (st1, offset1, count1) →
      offset + count ≤ offset1 + count1 ∧
      offset1 + count1 ≤ st.currentBytesWritten ∧
      st1.currentBytesWritten = st.currentBytesWritten ∧
      st1.outputBuffer = st.outputBuffer ∧
      st1.outputFile.written = st.outputFile.written ++
        readBytes st.outputBuffer (offset + count) (offset1 + count1 - (offset + count)) := by
  intro n
  induction n with
  | zero =>
    intro st st1 offset count offset1 count1 hle h
    simp only [flushIter, Option.some.injEq, Prod.mk.injEq] at h
    obtain ⟨h1, h2, h3⟩ := h
    subst h1 h2 h3
    exact ⟨le_refl _, hle, rfl, rfl, by simp [readBytes_zero]⟩
  | succ n ih =>
    intro st st1 offset count offset1 count1 hle h
    by_cases hdone : offset + count = st.currentBytesWritten
    · simp [flushIter, flushStep, hdone] at h
    · simp only [flushIter, flushStep, WriteFile, bne_iff_ne, ne_eq, hdone,
        not_false_eq_true, ↓reduceIte] at h
      obtain ⟨c, hc⟩ : ∃ c, c = min (env.transfer st.outputFile.path st.outputFile.calls
          ((st.currentBytesWritten - (offset + count)) % DWORD_RANGE))
          ((st.currentBytesWritten - (offset + count)) % DWORD_RANGE) := ⟨_, rfl⟩
      rw [← hc] at h
      have hc2 : c ≤ st.currentBytesWritten - (offset + count) := by
        rw [hc]
        exact le_trans (min_le_right _ _) (Nat.mod_le _ _)
      obtain ⟨h1, h2, h3, h4, h5⟩ := ih _ st1 (offset + count) c offset1 count1
        (by simp only; omega) h
      simp only at h1 h2 h3 h4 h5
      refine ⟨by omega, h2, h3, h4, ?_⟩
      rw [h5, List.append_assoc, ← readBytes_add]
      congr 2
      omega

theorem flushStep_stuck (env : Platform) (st : ThreadProfiler)
    (hfail : ∀ call requested, env.transfer st.outputFile.path call requested = 0)
    (hpend : 0 < st.currentBytesWritten) :
    flushStep env st 0 0 =
      some ({ st with outputFile :=
        { st.outputFile with calls := st.outputFile.calls + 1 } }, 0, 0) := by
  have hne : ¬ (0 = st.currentBytesWritten) := by omega
  simp [flushStep, WriteFile, hfail, hne, readBytes_zero]

theorem flushLoop_stuck (env : Platform) :
    ∀ (fuel : Nat) (st : ThreadProfiler),
      (∀ call requested, env.transfer st.outputFile.path call requested = 0) →
      0 < st.currentBytesWritten → flushLoop env fuel st 0 0 = none := by
  intro fuel
  induction fuel with
  | zero => intro st _ _; rfl
  | succ fuel ih =>
    intro st hfail hpend
    simp only [flushLoop, flushStep_stuck env st hfail hpend]
    exact ih _ hfail hpend

theorem flushIter_stuck (env : Platform) :
    ∀ (n : Nat) (st : ThreadProfiler),
      (∀ call requested, env.transfer st.outputFile.path call requested = 0) →
      0 < st.currentBytesWritten →
      flushIter env n st 0 0 =
        some ({ st with outputFile :=
          { st.outputFile with calls := st.outputFile.calls + n } }, 0, 0) := by
  intro n
  induction n with
  | zero => intro st _ _; simp [flushIter]
  | succ n ih =>
    intro st hfail hpend
    simp only [flushIter, flushStep_stuck env st hfail hpend]
    refine (ih { st with outputFile :=
      { st.outputFile with calls := st.outputFile.calls + 1 } } hfail hpend).trans ?_
    simp [Nat.add_assoc, Nat.add_comm 1 n]

theorem progress_shortWrites (f : Nat) (g : Nat × Nat × Nat) : Progress (shortWrites f g) := by
  intro path call requested h
  simp only [shortWrites]
  exact lt_min h Nat.one_pos

theorem progress_fullWrites (f : Nat) (g : Nat × Nat × Nat) : Progress (fullWrites f g) := by
  intro path call requested h
  exact h

/-! ## Appending to the buffer -/

theorem leBytes_length (k v : Nat) : (leBytes k v).length = k := by
  induction k generalizing v with
  | zero => rfl
  | succ k ih => simp [leBytes, ih]

theorem unprotectedWrite_ok (st : ThreadProfiler) (bytes : List Nat)
    (h : st.currentBytesWritten + bytes.length ≤ st.bufferSize) :
    ∃ st1, unprotectedWrite st bytes = some st1 ∧
      st1.outputFile = st.outputFile ∧
      st1.pending = st.pending ++ bytes ∧
      st1.currentBytesWritten = st.currentBytesWritten + bytes.length ∧
      st1.bufferSize = st.bufferSize ∧
      st1.threadIdentifier = st.threadIdentifier := by
  refine ⟨_, if_pos h, rfl, ?_, rfl, rfl, rfl⟩
  simp only [pending]
  rw [readBytes_add, readBytes_memcpy_below, Nat.zero_add, readBytes_memcpy_at]

theorem unprotectedWrite_overrun (st : ThreadProfiler) (bytes : List Nat)
    (h : st.bufferSize < st.currentBytesWritten + bytes.length) :
    unprotectedWrite st bytes = none :=
  if_neg (by omega)

theorem predictWriteEntry_spec (env : Platform) (hp : Progress env) (fuel : Nat)
    (st : ThreadProfiler) (bytes : Nat)
    (hdw : st.bufferSize < DWORD_RANGE) (hin : st.currentBytesWritten ≤ st.bufferSize)
    (hfuel : st.bufferSize < fuel) :
    ∃ st0, predictWriteEntry env fuel st bytes = some st0 ∧
      st0.stream = st.stream ∧
      st0.currentBytesWritten =
        (if st.currentBytesWritten + 1 + 4 + bytes ≥ st.bufferSize then 0
          else st.currentBytesWritten) ∧
      st0.bufferSize = st.bufferSize ∧
      st0.outputFile.path = st.outputFile.path ∧
      st0.threadIdentifier = st.threadIdentifier := by
  by_cases hfull : st.currentBytesWritten + 1 + 4 + bytes ≥ st.bufferSize
  · obtain ⟨k, _, h⟩ := flush_spec env hp fuel st (by omega) (by omega)
    refine ⟨{ st with
      outputFile := { st.outputFile with
        written := st.outputFile.written ++ st.pending,
        calls := st.outputFile.calls + k },
      currentBytesWritten := 0 }, ?_, ?_, ?_, rfl, rfl, rfl⟩
    · simp only [predictWriteEntry, hfull, ↓reduceIte]
      exact h
    · simp [stream, pending, readBytes_zero]
    · simp [hfull]
  · refine ⟨st, ?_, rfl, ?_, rfl, rfl, rfl⟩
    · simp only [predictWriteEntry, hfull, ↓reduceIte]
    · simp [hfull]

/-- The bytes `write` copies into the buffer for an identifier entry. -/
theorem write_identifier_spec (env : Platform) (hp : Progress env) (fuel : Nat)
    (st : ThreadProfiler) (entry : RawEntry) (chars : List Nat)
    (hty : entry.type = RawEntry.ENTRY_FUNCTION_IDENTIFIER ∨
      entry.type = RawEntry.ENTRY_EVENT_IDENTIFIER)
    (hname : entry.variantData = .name chars)
    (hdw : st.bufferSize < DWORD_RANGE) (hin : st.currentBytesWritten ≤ st.bufferSize)
    (hfit : 6 + strlen chars ≤ st.bufferSize) (hfuel : st.bufferSize < fuel) :
    ∃ st1, write env fuel st entry = some st1 ∧
      st1.stream = st.stream ++
        (leBytes 1 entry.type ++ leBytes 4 entry.integralData ++
          [strlen chars % 256] ++ chars.take (strlen chars)) ∧
      st1.currentBytesWritten =
        (if st.currentBytesWritten + 6 + strlen chars ≥ st.bufferSize then 0
          else st.currentBytesWritten) + 6 + strlen chars ∧
      st1.currentBytesWritten ≤ st1.bufferSize ∧
      st1.bufferSize = st.bufferSize ∧
      st1.outputFile.path = st.outputFile.path ∧
      st1.threadIdentifier = st.threadIdentifier := by
  obtain ⟨st0, h0, hs0, hc0, hb0, hp0, ht0⟩ :=
    predictWriteEntry_spec env hp fuel st (1 + strlen chars) hdw hin hfuel
  have hc0' : st0.currentBytesWritten =
      (if st.currentBytesWritten + 6 + strlen chars ≥ st.bufferSize then 0
        else st.currentBytesWritten) := by
    rw [hc0]
    congr 1
    apply propext
    constructor <;> intro h <;> omega
  have hroom : st0.currentBytesWritten + 6 + strlen chars ≤ st0.bufferSize := by
    rw [hc0', hb0]
    split <;> omega
  have hlen : (chars.take (strlen chars)).length = strlen chars := by
    rw [List.length_take]
    exact min_eq_left (List.takeWhile_sublist _).length_le
  obtain ⟨st1, h1, hf1, hq1, hc1, hb1, ht1⟩ :=
    unprotectedWrite_ok st0 (leBytes 1 entry.type) (by rw [leBytes_length]; omega)
  rw [leBytes_length] at hc1
  obtain ⟨st2, h2, hf2, hq2, hc2, hb2, ht2⟩ :=
    unprotectedWrite_ok st1 (leBytes 4 entry.integralData) (by rw [leBytes_length]; omega)
  rw [leBytes_length] at hc2
  obtain ⟨st3, h3, hf3, hq3, hc3, hb3, ht3⟩ :=
    unprotectedWrite_ok st2 [strlen chars % 256] (by simp only [List.length_singleton]; omega)
  simp only [List.length_singleton] at hc3
  obtain ⟨st4, h4, hf4, hq4, hc4, hb4, ht4⟩ :=
    unprotectedWrite_ok st3 (chars.take (strlen chars)) (by rw [hlen]; omega)
  rw [hlen] at hc4
  refine ⟨st4, ?_, ?_, ?_, ?_, ?_, ?_, ?_⟩
  · simp only [write, hty, hname, ↓reduceIte, h0, h1, h2, h3, h4]
  · rw [← hs0]
    simp only [stream, hf4, hf3, hf2, hf1, hq4, hq3, hq2, hq1, List.append_assoc]
  · rw [← hc0']; omega
  · omega
  · omega
  · rw [hf4, hf3, hf2, hf1, hp0]
  · omega

theorem objectBytes_time (e : RawEntry) (t : Nat) (h : e.variantData = .time t) :
    e.objectBytes = some (leBytes 1 e.type ++
      [e.padding.1 % 256, e.padding.2.1 % 256, e.padding.2.2 % 256] ++
      leBytes 4 e.integralData ++ leBytes 8 t) := by
  simp [RawEntry.objectBytes, h]

/-- The bytes `write` copies into the buffer for an entry that uses the time field,
when the copy stays inside the buffer. -/
theorem write_value_spec (env : Platform) (hp : Progress env) (fuel : Nat)
    (st : ThreadProfiler) (entry : RawEntry) (t : Nat)
    (hty : ¬ (entry.type = RawEntry.ENTRY_FUNCTION_IDENTIFIER ∨
      entry.type = RawEntry.ENTRY_EVENT_IDENTIFIER))
    (htime : entry.variantData = .time t)
    (hdw : st.bufferSize < DWORD_RANGE) (hin : st.currentBytesWritten ≤ st.bufferSize)
    (hroom : (if st.currentBytesWritten + 13 ≥ st.bufferSize then 0
      else st.currentBytesWritten) + 16 ≤ st.bufferSize)
    (hfuel : st.bufferSize < fuel) :
    ∃ st1, write env fuel st entry = some st1 ∧
      st1.stream = st.stream ++
        (leBytes 1 entry.type ++
          [entry.padding.1 % 256, entry.padding.2.1 % 256, entry.padding.2.2 % 256] ++
          leBytes 4 entry.integralData ++ leBytes 8 t) ∧
      st1.currentBytesWritten =
        (if st.currentBytesWritten + 13 ≥ st.bufferSize then 0
          else st.currentBytesWritten) + 16 ∧
      st1.bufferSize = st.bufferSize ∧
      st1.outputFile.path = st.outputFile.path ∧
      st1.threadIdentifier = st.threadIdentifier := by
  obtain ⟨st0, h0, hs0, hc0, hb0, hp0, ht0⟩ :=
    predictWriteEntry_spec env hp fuel st 8 hdw hin hfuel
  have hc0' : st0.currentBytesWritten =
      (if st.currentBytesWritten + 13 ≥ st.bufferSize then 0
        else st.currentBytesWritten) := hc0
  have hlen : (leBytes 1 entry.type ++
      [entry.padding.1 % 256, entry.padding.2.1 % 256, entry.padding.2.2 % 256] ++
      leBytes 4 entry.integralData ++ leBytes 8 t).length = 16 := by
    simp [leBytes_length]
  obtain ⟨st1, h1, hf1, hq1, hc1, hb1, ht1⟩ :=
    unprotectedWrite_ok st0 (leBytes 1 entry.type ++
      [entry.padding.1 % 256, entry.padding.2.1 % 256, entry.padding.2.2 % 256] ++
      leBytes 4 entry.integralData ++ leBytes 8 t) (by rw [hlen, hc0', hb0]; exact hroom)
  rw [hlen] at hc1
  refine ⟨st1, ?_, ?_, ?_, ?_, ?_, ?_⟩
  · simp only [write, hty, ↓reduceIte, h0, objectBytes_time entry t htime, h1]
  · rw [← hs0]
    simp only [stream, hf1, hq1, List.append_assoc]
  · rw [← hc0']; exact hc1
  · omega
  · rw [hf1, hp0]
  · omega

theorem fromLE_leBytes_four (h : Nat) (hh : h < 2 ^ 32) : fromLE (leBytes 4 h) = h := by
  simp only [leBytes, fromLE]
  omega

theorem decodeIdentifier_record (ty h : Nat) (name rest : List Nat)
    (hty : ty = 0 ∨ ty = 1) (hh : h < 2 ^ 32) :
    decodeIdentifier (([ty] ++ leBytes 4 h ++ [name.length] ++ name) ++ rest) =
      some (ty, h, name, rest) := by
  have hle := fromLE_leBytes_four h hh
  simp only [leBytes] at hle
  simp only [leBytes, List.cons_append, List.nil_append, List.append_assoc, decodeIdentifier,
    List.length_append, hty, Nat.le_add_right, and_self, ↓reduceIte, hle,
    List.take_left', List.drop_left']

theorem strlen_of_no_nul (name : List Nat) (h : ∀ c ∈ name, c ≠ 0) :
    strlen name = name.length := by
  unfold strlen
  congr 1
  rw [List.takeWhile_eq_self_iff]
  intro c hc
  simpa using h c hc

/-! ## C1 – C5, C8: the records `write` appends -/

/-- C1, evaluated: for each of the five non-identifier kinds, `write` on an empty
64-byte buffer appends 16 bytes, not 13: the tag, the three padding bytes of the
`RawEntry` object (here AA BB CC), the handle, the value.  The layout of the
specification has no such bytes. -/
theorem write_value_entry_copies_sixteen_bytes :
    [RawEntry.ENTRY_FUNCTION_ENTER, RawEntry.ENTRY_FUNCTION_LEAVE, RawEntry.ENTRY_EVENT,
      RawEntry.ENTRY_FREQUENCY, RawEntry.ENTRY_MAIN_THREAD_IDENTIFIER].map
      (fun ty =>
        ((write samplePlatform 1 (fresh samplePlatform 64 "profile/0/7" 7)
          { sampleEnter with type := ty }).map
            (fun st => (st.pending, st.currentBytesWritten)),
          specValueRecord ty 1 5)) =
    [(some ([2, 170, 187, 204, 1, 0, 0, 0, 5, 0, 0, 0, 0, 0, 0, 0], 16),
        [2, 1, 0, 0, 0, 5, 0, 0, 0, 0, 0, 0, 0]),
      (some ([3, 170, 187, 204, 1, 0, 0, 0, 5, 0, 0, 0, 0, 0, 0, 0], 16),
        [3, 1, 0, 0, 0, 5, 0, 0, 0, 0, 0, 0, 0]),
      (some ([4, 170, 187, 204, 1, 0, 0, 0, 5, 0, 0, 0, 0, 0, 0, 0], 16),
        [4, 1, 0, 0, 0, 5, 0, 0, 0, 0, 0, 0, 0]),
      (some ([5, 170, 187, 204, 1, 0, 0, 0, 5, 0, 0, 0, 0, 0, 0, 0], 16),
        [5, 1, 0, 0, 0, 5, 0, 0, 0, 0, 0, 0, 0]),
      (some ([6, 170, 187, 204, 1, 0, 0, 0, 5, 0, 0, 0, 0, 0, 0, 0], 16),
        [6, 1, 0, 0, 0, 5, 0, 0, 0, 0, 0, 0, 0])] := by
  decide

/-- C2: for an identifier entry (kind 0 or 1) with a 32-bit handle `h` and a name of at
most 255 bytes, written to a buffer that is within bounds and can hold the record,
`write` returns, the stream has grown by exactly the kind tag, the 4-byte little-endian
`h`, one length byte equal to the name's length and the name's bytes, the cursor has
advanced by that record from where `predictWriteEntry` left it, and the forward-only
reader run on the record followed by anything recovers the kind, `h` and the name and
leaves exactly what followed. -/
theorem write_identifier_roundtrip (env : Platform) (st : ThreadProfiler) (fuel : Nat)
    (ty h : Nat) (pad : Nat × Nat × Nat) (name : List Nat)
    (hp : Progress env)
    (hty : ty = RawEntry.ENTRY_FUNCTION_IDENTIFIER ∨ ty = RawEntry.ENTRY_EVENT_IDENTIFIER)
    (hh : h < 2 ^ 32) (hnul : ∀ c ∈ name, c ≠ 0) (hlen : name.length ≤ 255)
    (hdw : st.bufferSize < DWORD_RANGE) (hin : st.currentBytesWritten ≤ st.bufferSize)
    (hfit : 6 + name.length ≤ st.bufferSize) (hfuel : st.bufferSize < fuel) :
    ∃ st1, write env fuel st
        { type := ty, padding := pad, integralData := h, variantData := .name name } =
          some st1 ∧
      st1.stream = st.stream ++ ([ty] ++ leBytes 4 h ++ [name.length] ++ name) ∧
      st1.currentBytesWritten =
        (if st.currentBytesWritten + 6 + name.length ≥ st.bufferSize then 0
          else st.currentBytesWritten) + 6 + name.length ∧
      [ty] ++ leBytes 4 h ++ [name.length] ++ name = specIdentifierRecord ty h name ∧
      ∀ rest, decodeIdentifier (([ty] ++ leBytes 4 h ++ [name.length] ++ name) ++ rest) =
        some (ty, h, name, rest) := by
  have hs := strlen_of_no_nul name hnul
  obtain ⟨st1, h1, h2, h3, -⟩ := write_identifier_spec env hp fuel st
    { type := ty, padding := pad, integralData := h, variantData := .name name } name
    hty rfl hdw hin (by rw [hs]; exact hfit) hfuel
  have hty1 : leBytes 1 ty = [ty] := by
    rcases hty with h0 | h0 <;> rw [h0] <;> rfl
  have hmod : name.length % 256 = name.length := Nat.mod_eq_of_lt (by omega)
  simp only [hs, hmod, List.take_length, hty1] at h2 h3
  refine ⟨st1, h1, h2, h3, ?_, ?_⟩
  · simp [specIdentifierRecord, hty1]
  · intro rest
    exact decodeIdentifier_record ty h name rest hty hh

/-- Witness of C2: the event identifier "tick" with handle 258 on an empty 64-byte
buffer. -/
theorem write_identifier_roundtrip_witness :
    ∃ st1, write samplePlatform 65 (fresh samplePlatform 64 "profile/0/events" 7)
        { type := 1, padding := (0, 0, 0), integralData := 258,
          variantData := .name [116, 105, 99, 107] } = some st1 ∧
      st1.stream = (fresh samplePlatform 64 "profile/0/events" 7).stream ++
        ([1] ++ leBytes 4 258 ++ [[116, 105, 99, 107].length] ++ [116, 105, 99, 107]) ∧
      st1.currentBytesWritten =
        (if (fresh samplePlatform 64 "profile/0/events" 7).currentBytesWritten + 6 +
            [116, 105, 99, 107].length ≥
            (fresh samplePlatform 64 "profile/0/events" 7).bufferSize then 0
          else (fresh samplePlatform 64 "profile/0/events" 7).currentBytesWritten) + 6 +
          [116, 105, 99, 107].length ∧
      [1] ++ leBytes 4 258 ++ [[116, 105, 99, 107].length] ++ [116, 105, 99, 107] =
        specIdentifierRecord 1 258 [116, 105, 99, 107] ∧
      ∀ rest, decodeIdentifier
        (([1] ++ leBytes 4 258 ++ [[116, 105, 99, 107].length] ++ [116, 105, 99, 107]) ++
          rest) = some (1, 258, [116, 105, 99, 107], rest) :=
  write_identifier_roundtrip samplePlatform (fresh samplePlatform 64 "profile/0/events" 7) 65
    1 258 (0, 0, 0) [116, 105, 99, 107] (progress_fullWrites 1000 (170, 187, 204))
    (Or.inr rfl) (by decide) (by decide) (by decide) (by decide) (by decide) (by decide)
    (by decide)

set_option maxRecDepth 100000 in
/-- C3, evaluated: for a function identifier whose name has 256 bytes, `write` takes no
error path: it appends the tag, the handle, the length byte 0 (256 wrapped to a byte)
and then all 256 name bytes; the forward-only reader takes the record to have an empty
name and the 256 name bytes to be the records that follow. -/
theorem write_long_name_wraps_length_byte :
    strlen (List.replicate 256 97) = 256 ∧
    (write samplePlatform 1 (fresh samplePlatform 1024 "profile/0/events" 7)
      longNameEntry).map (fun st => (st.pending, st.currentBytesWritten)) =
      some ([0, 1, 0, 0, 0, 0] ++ List.replicate 256 97, 262) ∧
    decodeIdentifier ([0, 1, 0, 0, 0, 0] ++ List.replicate 256 97) =
      some (0, 1, [], List.replicate 256 97) := by
  decide

/-- C4, evaluated: in a 30-byte buffer the constructor's frequency entry leaves
`currentBytesWritten = 16`; for the next `enter` entry `predictWriteEntry` counts
1 + 4 + 8 = 13 bytes, finds 16 + 13 < 30 and does not flush; `write` then copies the
16 bytes of the `RawEntry` object to offsets 16 .. 31, past the end of the buffer. -/
theorem write_overruns_thirty_byte_buffer :
    (construct samplePlatform 31 30 "profile/0/7" 7).map
      (fun st => (st.currentBytesWritten, st.bufferSize)) = some (16, 30) ∧
    ((construct samplePlatform 31 30 "profile/0/7" 7).bind
      (fun st => predictWriteEntry samplePlatform 31 st 8)).map
      (fun st => (st.currentBytesWritten, st.outputFile.written)) = some (16, []) ∧
    sampleEnter.objectBytes.map List.length = some 16 ∧
    (construct samplePlatform 31 30 "profile/0/7" 7).bind
      (fun st => (write samplePlatform 31 st sampleEnter).map
        (fun st1 => st1.currentBytesWritten)) = none := by
  decide

/-- C5, evaluated: with capacity 30 and 16 pending bytes, an `enter` entry (16 bytes,
or 13 as the specification counts) does not fit behind the pending bytes, yet `write`
does not flush: nothing reaches the file and the copy runs past the buffer.  With
capacity 28 the flush happens, and the used size afterwards is 16, not 13. -/
theorem write_skips_flush_when_entry_does_not_fit :
    ((construct samplePlatform 31 30 "profile/0/7" 7).bind
      (fun st => predictWriteEntry samplePlatform 31 st 8)).map
      (fun st => (st.pending.length, st.outputFile.written, st.outputFile.calls)) =
        some (16, [], 0) ∧
    ((construct samplePlatform 31 30 "profile/0/7" 7).bind
      (fun st => write samplePlatform 31 st sampleEnter)).isNone = true ∧
    ((construct samplePlatform 31 28 "profile/0/7" 7).bind
      (fun st => write samplePlatform 31 st sampleEnter)).map
      (fun st => (st.outputFile.written.length, st.currentBytesWritten)) = some (16, 16) ∧
    (specValueRecord 2 1 5).length = 13 := by
  decide

/-- C8, evaluated: two entries that each fit a 30-byte buffer, written in turn to a
fresh one, do not yield the concatenation of their encodings: the second `write`
copies past the end of the buffer.  In a 64-byte buffer the stream of the two entries
has 32 bytes and differs from the two 13-byte records of the specification. -/
theorem writeAll_overruns_or_pads :
    (writeAll samplePlatform 31 (fresh samplePlatform 30 "profile/0/7" 7)
      [sampleFrequency, sampleEnter]).isNone = true ∧
    (writeAll samplePlatform 65 (fresh samplePlatform 64 "profile/0/7" 7)
      [sampleFrequency, sampleEnter]).map (fun st => st.stream) =
      some [5, 170, 187, 204, 0, 0, 0, 0, 232, 3, 0, 0, 0, 0, 0, 0,
        2, 170, 187, 204, 1, 0, 0, 0, 5, 0, 0, 0, 0, 0, 0, 0] ∧
    specValueRecord 5 0 1000 ++ specValueRecord 2 1 5 =
      [5, 0, 0, 0, 0, 232, 3, 0, 0, 0, 0, 0, 0, 2, 1, 0, 0, 0, 5, 0, 0, 0, 0, 0, 0, 0] := by
  decide

/-! ## Buffers that hold 16-byte records only -/

theorem stream_length (st : ThreadProfiler) :
    st.stream.length = st.outputFile.written.length + st.currentBytesWritten := by
  simp [stream, pending, readBytes_length]

theorem valueBytes_length (padding : Nat × Nat × Nat) (type handle value : Nat) :
    (valueBytes padding type handle value).length = 16 := by
  simp [valueBytes, leBytes_length]

theorem valueRecords_length (env : Platform) (path : String) :
    ∀ (records : List (Nat × Nat × Nat)) (offset : Nat),
      (valueRecords env path offset records).length = 16 * records.length := by
  intro records
  induction records with
  | nil => intro _; rfl
  | cons r rs ih =>
    intro offset
    obtain ⟨type, handle, value⟩ := r
    simp only [valueRecords, List.length_append, valueBytes_length, ih, List.length_cons]
    omega

/-- A value entry written where the capacity check does not fire and the copy fits. -/
theorem write_value_noflush (env : Platform) (fuel : Nat) (st : ThreadProfiler)
    (type handle value : Nat) (padding : Nat × Nat × Nat)
    (hty : ¬ (type = RawEntry.ENTRY_FUNCTION_IDENTIFIER ∨
      type = RawEntry.ENTRY_EVENT_IDENTIFIER))
    (hroom : st.currentBytesWritten + 16 ≤ st.bufferSize) :
    ∃ st1, write env fuel st
        { type := type, padding := padding, integralData := handle,
          variantData := .time value } = some st1 ∧
      st1.stream = st.stream ++ valueBytes padding type handle value ∧
      st1.currentBytesWritten = st.currentBytesWritten + 16 ∧
      st1.bufferSize = st.bufferSize ∧
      st1.outputFile = st.outputFile := by
  have hlen := valueBytes_length padding type handle value
  obtain ⟨st1, h1, hf1, hq1, hc1, hb1, _⟩ :=
    unprotectedWrite_ok st (valueBytes padding type handle value) (by rw [hlen]; exact hroom)
  rw [hlen] at hc1
  refine ⟨st1, ?_, ?_, hc1, hb1, hf1⟩
  · have hcond : ¬ (st.currentBytesWritten + 1 + 4 + 8 ≥ st.bufferSize) := by omega
    simp only [write, hty, ↓reduceIte, predictWriteEntry, hcond, RawEntry.objectBytes]
    exact h1
  · simp only [stream, hf1, hq1, List.append_assoc]

/-- A value entry written where the capacity check fires: the pending bytes are flushed
first. -/
theorem write_value_flush (env : Platform) (hp : Progress env) (fuel : Nat)
    (st : ThreadProfiler) (type handle value : Nat) (padding : Nat × Nat × Nat)
    (hty : ¬ (type = RawEntry.ENTRY_FUNCTION_IDENTIFIER ∨
      type = RawEntry.ENTRY_EVENT_IDENTIFIER))
    (hfull : st.currentBytesWritten + 13 ≥ st.bufferSize)
    (hdw : st.currentBytesWritten < DWORD_RANGE) (hfuel : st.currentBytesWritten < fuel)
    (h16 : 16 ≤ st.bufferSize) :
    ∃ st1, write env fuel st
        { type := type, padding := padding, integralData := handle,
          variantData := .time value } = some st1 ∧
      st1.stream = st.stream ++ valueBytes padding type handle value ∧
      st1.currentBytesWritten = 16 ∧
      st1.bufferSize = st.bufferSize ∧
      st1.outputFile.path = st.outputFile.path := by
  obtain ⟨k, _, hf⟩ := flush_spec env hp fuel st hdw hfuel
  have hlen := valueBytes_length padding type handle value
  obtain ⟨st1, h1, hf1, hq1, hc1, hb1, _⟩ :=
    unprotectedWrite_ok
      { st with
        outputFile := { st.outputFile with
          written := st.outputFile.written ++ st.pending,
          calls := st.outputFile.calls + k },
        currentBytesWritten := 0 }
      (valueBytes padding type handle value) (by rw [hlen]; simp only; omega)
  rw [hlen] at hc1
  refine ⟨st1, ?_, ?_, by simpa using hc1, hb1, by rw [hf1]⟩
  · have hcond : st.currentBytesWritten + 1 + 4 + 8 ≥ st.bufferSize := by omega
    simp only [write, hty, ↓reduceIte, predictWriteEntry, hcond, hf, RawEntry.objectBytes]
    exact h1
  · simp only [stream, hf1, hq1]
    simp [pending, readBytes_zero]

/-- A value entry written to a buffer that has room left for it. -/
theorem write_value_room (env : Platform) (hp : Progress env) (fuel : Nat)
    (st : ThreadProfiler) (type handle value n : Nat) (padding : Nat × Nat × Nat)
    (hty : ¬ (type = RawEntry.ENTRY_FUNCTION_IDENTIFIER ∨
      type = RawEntry.ENTRY_EVENT_IDENTIFIER))
    (hdw : st.bufferSize < DWORD_RANGE) (hroom : RoomLeft (n + 1) st)
    (hfuel : st.bufferSize < fuel) :
    ∃ st1, write env fuel st
        { type := type, padding := padding, integralData := handle,
          variantData := .time value } = some st1 ∧
      st1.stream = st.stream ++ valueBytes padding type handle value ∧
      RoomLeft n st1 ∧
      st1.bufferSize = st.bufferSize ∧
      st1.outputFile.path = st.outputFile.path := by
  obtain ⟨ha, hin, h16, hfit⟩ := hroom
  by_cases hfull : st.currentBytesWritten + 13 ≥ st.bufferSize
  · obtain ⟨st1, h1, h2, h3, h4, h5⟩ := write_value_flush env hp fuel st type handle value
      padding hty hfull (by omega) (by omega) h16
    refine ⟨st1, h1, h2, ⟨?_, ?_, ?_, ?_⟩, h4, h5⟩
    · rw [h3]
    · rw [h3, h4]; exact h16
    · rw [h4]; exact h16
    · rw [h3, h4]
      rcases hfit with h | h
      · exact Or.inl h
      · exact Or.inr (by omega)
  · have hcopy : st.currentBytesWritten + 16 ≤ st.bufferSize := by
      rcases hfit with h | h <;> omega
    obtain ⟨st1, h1, h2, h3, h4, h5⟩ := write_value_noflush env fuel st type handle value
      padding hty hcopy
    refine ⟨st1, h1, h2, ⟨?_, ?_, ?_, ?_⟩, h4, by rw [h5]⟩
    · rw [h3]; omega
    · rw [h3, h4]; exact hcopy
    · rw [h4]; exact h16
    · rw [h3, h4]
      rcases hfit with h | h
      · exact Or.inl h
      · exact Or.inr (by omega)

/-- The constructors, for a capacity that holds one 16-byte record. -/
theorem construct_spec (env : Platform) (fuel capacity : Nat) (path : String) (tid : Nat)
    (h16 : 16 ≤ capacity) :
    ∃ tp, construct env fuel capacity path tid = some tp ∧
      tp.stream = valueBytes (env.stackGarbage path 0) RawEntry.ENTRY_FREQUENCY 0
        env.frequency ∧
      tp.currentBytesWritten = 16 ∧ tp.bufferSize = capacity ∧
      tp.outputFile = CreateFileA path := by
  obtain ⟨tp, h1, h2, h3, h4, h5⟩ := write_value_noflush env fuel
    (fresh env capacity path tid) RawEntry.ENTRY_FREQUENCY 0 env.frequency
    ((fresh env capacity path tid).nextPadding env) (by decide)
    (by simp only [fresh]; omega)
  refine ⟨tp, h1, ?_, by simpa [fresh] using h3, by simpa [fresh] using h4,
    by simpa [fresh] using h5⟩
  rw [h2]
  simp [stream, pending, fresh, CreateFileA, readBytes_zero, nextPadding]

theorem roomLeft_of_constructed (n capacity : Nat) (tp : ThreadProfiler)
    (hcap : RoomFor (n + 1) capacity) (hc : tp.currentBytesWritten = 16)
    (hb : tp.bufferSize = capacity) : RoomLeft n tp := by
  obtain ⟨h16, hfit⟩ := hcap
  refine ⟨by rw [hc], by rw [hc, hb]; exact h16, by rw [hb]; exact h16, ?_⟩
  rw [hc, hb]
  rcases hfit with h | h
  · exact Or.inl h
  · exact Or.inr (by omega)

/-- What `initialize` leaves behind when its two 16-byte copies stay in the buffer. -/
theorem initializeProfiler_spec (env : Platform) (fuel : Nat) (g : Globals)
    (settings : Settings) (tid wallclock : Nat)
    (hcap : RoomFor 2 settings.outputBufferLength)
    (hflush : settings.outputBufferLength < 30 → Progress env ∧ 16 < fuel) :
    ∃ g1 ef, initializeProfiler env fuel g settings tid wallclock = some g1 ∧
      g1.eventFile = some ef ∧
      ef.stream = valueRecords env ef.outputFile.path 0
        [(RawEntry.ENTRY_FREQUENCY, 0, env.frequency),
          (RawEntry.ENTRY_MAIN_THREAD_IDENTIFIER, tid, 0)] ∧
      ef.currentBytesWritten ≤ ef.bufferSize ∧
      ef.bufferSize = settings.outputBufferLength ∧
      g1.globalSettings.outputBufferLength = settings.outputBufferLength ∧
      g1.currentIdentifier = 0 ∧
      g1.tspProfiler = g.tspProfiler ∧
      g1.activeThreads = g.activeThreads := by
  obtain ⟨h16, hfit⟩ := hcap
  obtain ⟨ef0, h0, hs0, hc0, hb0, hf0⟩ := construct_spec env fuel settings.outputBufferLength
    (settings.outputDirectory ++ "/" ++ toString wallclock ++ "/" ++ "events") tid h16
  have hpad : ef0.nextPadding env = env.stackGarbage ef0.outputFile.path 16 := by
    simp [nextPadding, hf0, hc0, CreateFileA]
  have hwrite : ∃ ef1, write env fuel ef0
      { type := RawEntry.ENTRY_MAIN_THREAD_IDENTIFIER, padding := ef0.nextPadding env,
        integralData := tid, variantData := .time 0 } = some ef1 ∧
      ef1.stream = ef0.stream ++ valueBytes (ef0.nextPadding env)
        RawEntry.ENTRY_MAIN_THREAD_IDENTIFIER tid 0 ∧
      ef1.currentBytesWritten ≤ ef1.bufferSize ∧
      ef1.bufferSize = ef0.bufferSize ∧
      ef1.outputFile.path = ef0.outputFile.path := by
    by_cases hsmall : settings.outputBufferLength < 30
    · obtain ⟨hp, hfuel⟩ := hflush hsmall
      obtain ⟨ef1, h1, h2, h3, h4, h5⟩ := write_value_flush env hp fuel ef0
        RawEntry.ENTRY_MAIN_THREAD_IDENTIFIER tid 0 (ef0.nextPadding env) (by decide)
        (by omega) (by rw [hc0]; decide) (by omega) (by omega)
      exact ⟨ef1, h1, h2, by omega, h4, h5⟩
    · have h32 : 32 ≤ settings.outputBufferLength := by
        rcases hfit with h | h <;> omega
      obtain ⟨ef1, h1, h2, h3, h4, h5⟩ := write_value_noflush env fuel ef0
        RawEntry.ENTRY_MAIN_THREAD_IDENTIFIER tid 0 (ef0.nextPadding env) (by decide)
        (by omega)
      exact ⟨ef1, h1, h2, by omega, h4, by rw [h5]⟩
  obtain ⟨ef1, h1, hs1, hin1, hb1, hp1⟩ := hwrite
  refine ⟨{ g with
    globalSettings := { settings with
      outputDirectory := settings.outputDirectory ++ "/" ++ toString wallclock },
    currentIdentifier := 0,
    eventFile := some ef1 }, ef1, ?_, rfl, ?_, hin1, by omega, rfl, rfl, rfl, rfl⟩
  · simp only [initializeProfiler, h0, h1]
  · rw [hs1, hs0, hpad, hp1]
    simp [valueRecords, hf0, CreateFileA]

/-! ## Scope registration -/

theorem identifierBytes_eq_spec (type handle : Nat) (name : List Nat)
    (hnul : ∀ c ∈ name, c ≠ 0) (hlen : name.length ≤ 255) :
    identifierBytes type handle name = specIdentifierRecord type handle name := by
  have hs := strlen_of_no_nul name hnul
  have hmod : name.length % 256 = name.length := Nat.mod_eq_of_lt (by omega)
  simp only [identifierBytes, specIdentifierRecord, hs, hmod, List.take_length]

theorem Entry_construct_spec (env : Platform) (hp : Progress env) (fuel : Nat)
    (g : Globals) (tid : Nat) (name : List Nat) (ef : ThreadProfiler)
    (hef : g.eventFile = some ef) (hin : ef.currentBytesWritten ≤ ef.bufferSize)
    (hdw : ef.bufferSize < DWORD_RANGE) (hfit : 6 + strlen name ≤ ef.bufferSize)
    (hfuel : ef.bufferSize < fuel)
    (hroom : g.tspProfiler tid = none → 16 ≤ g.globalSettings.outputBufferLength) :
    ∃ g1 ef1 tp1,
      Entry.construct env fuel g tid name = some ({ identifier := (allocateID g).1 }, g1) ∧
      g1.eventFile = some ef1 ∧
      ef1.stream = ef.stream ++
        identifierBytes RawEntry.ENTRY_FUNCTION_IDENTIFIER (allocateID g).1 name ∧
      ef1.currentBytesWritten ≤ ef1.bufferSize ∧ ef1.bufferSize = ef.bufferSize ∧
      ef1.outputFile.path = ef.outputFile.path ∧
      g1.globalSettings = g.globalSettings ∧
      g1.currentIdentifier = (allocateID g).2.currentIdentifier ∧
      g1.tspProfiler tid = some tp1 ∧
      threadBufferOrNew env fuel g tid = some tp1 ∧
      (∀ t, t ≠ tid → g1.tspProfiler t = g.tspProfiler t) ∧
      g1.activeThreads =
        (if (g.tspProfiler tid).isNone then g.activeThreads ++ [tid] else g.activeThreads) := by
  obtain ⟨ef1, hw, hs, _, hin1, hsz1, hp1, _⟩ := write_identifier_spec env hp fuel ef
    { type := RawEntry.ENTRY_FUNCTION_IDENTIFIER, padding := ef.nextPadding env,
      integralData := (allocateID g).1, variantData := .name name } name
    (Or.inl rfl) rfl hdw hin hfit hfuel
  cases htp : g.tspProfiler tid with
  | none =>
    obtain ⟨tp, hc, _⟩ := construct_spec env fuel g.globalSettings.outputBufferLength
      (g.globalSettings.outputDirectory ++ "/" ++ toString tid) tid (hroom htp)
    refine ⟨{ g with
      currentIdentifier := (allocateID g).2.currentIdentifier,
      tspProfiler := Function.update g.tspProfiler tid (some tp),
      activeThreads := g.activeThreads ++ [tid],
      eventFile := some ef1 }, ef1, tp, ?_, rfl, hs, hin1, hsz1, hp1, rfl, rfl, ?_, ?_, ?_, ?_⟩
    · simp only [Entry.construct, allocateID, htp, Option.isNone_none, ↓reduceIte,
        resetThreadProfiler, hc, hef]
      simp only [allocateID] at hw
      rw [hw]
    · simp
    · simp only [threadBufferOrNew, htp, hc]
    · intro t ht
      simp [Function.update_noteq ht]
    · simp
  | some tp =>
    refine ⟨{ g with
      currentIdentifier := (allocateID g).2.currentIdentifier,
      eventFile := some ef1 }, ef1, tp, ?_, rfl, hs, hin1, hsz1, hp1, rfl, rfl, htp, ?_, ?_, ?_⟩
    · simp only [Entry.construct, allocateID, htp, Option.isNone_some, Bool.false_eq_true,
        ↓reduceIte, hef]
      simp only [allocateID] at hw
      rw [hw]
    · simp only [threadBufferOrNew, htp]
    · intro t _
      rfl
    · simp

theorem registerAll_spec (env : Platform) (hp : Progress env) (fuel tid : Nat) :
    ∀ (names : List (List Nat)) (g : Globals) (ef : ThreadProfiler),
      g.eventFile = some ef → ef.currentBytesWritten ≤ ef.bufferSize →
      ef.bufferSize < DWORD_RANGE → ef.bufferSize < fuel →
      (g.tspProfiler tid = none → 16 ≤ g.globalSettings.outputBufferLength) →
      (∀ name ∈ names, 6 + name.length ≤ ef.bufferSize ∧ name.length ≤ 255 ∧
        ∀ c ∈ name, c ≠ 0) →
      ∃ entries g2 ef2, registerAll env fuel tid g names = some (entries, g2) ∧
        entries.length = names.length ∧
        g2.eventFile = some ef2 ∧
        ef2.stream = ef.stream ++
          (List.zipWith
            (fun e name =>
              specIdentifierRecord RawEntry.ENTRY_FUNCTION_IDENTIFIER e.identifier name)
            entries names).flatten ∧
        ef2.outputFile.path = ef.outputFile.path ∧
        threadBufferOrNew env fuel g2 tid = threadBufferOrNew env fuel g tid ∧
        ((names ≠ [] ∨ (g.tspProfiler tid).isSome = true) →
          (g2.tspProfiler tid).isSome = true) := by
  intro names
  induction names with
  | nil =>
    intro g ef hef _ _ _ _ _
    refine ⟨[], g, ef, rfl, rfl, hef, by simp, rfl, rfl, ?_⟩
    intro h
    rcases h with h | h
    · exact absurd rfl h
    · exact h
  | cons name names ih =>
    intro g ef hef hin hdw hfuel hroom hnames
    obtain ⟨hfit, hlen, hnul⟩ := hnames name (List.mem_cons_self _ _)
    have hs := strlen_of_no_nul name hnul
    obtain ⟨g1, ef1, tp1, hc, hef1, hs1, hin1, hsz1, hp1, hset1, _, htp1, hnew1, _, _⟩ :=
      Entry_construct_spec env hp fuel g tid name ef hef hin hdw (by rw [hs]; exact hfit)
        hfuel hroom
    obtain ⟨es, g2, ef2, hr, hlen2, hef2, hs2, hp2, hnew2, hsome2⟩ :=
      ih g1 ef1 hef1 hin1 (by omega) (by omega)
        (by intro h; rw [htp1] at h; cases h)
        (fun n hn => by
          have := hnames n (List.mem_cons_of_mem _ hn)
          rw [hsz1]
          exact this)
    refine ⟨{ identifier := (allocateID g).1 } :: es, g2, ef2, ?_, ?_, hef2, ?_, ?_, ?_, ?_⟩
    · simp only [registerAll, hc, hr]
    · simp [hlen2]
    · rw [hs2, hs1, identifierBytes_eq_spec _ _ name hnul hlen]
      simp [List.append_assoc]
    · rw [hp2, hp1]
    · rw [hnew2, hnew1]
      simp only [threadBufferOrNew, htp1]
    · intro _
      exact hsome2 (Or.inr (by simp [htp1]))

/-! ## Scope enter and leave -/

theorem Entry_call_spec (env : Platform) (hp : Progress env) (fuel : Nat)
    (e : Entry) (g : Globals) (tid time n : Nat) (tp : ThreadProfiler) (isEnter : Bool)
    (hdw : tp.bufferSize < DWORD_RANGE) (hfuel : tp.bufferSize < fuel)
    (htp : g.tspProfiler tid = some tp) (hroom : RoomLeft (n + 1) tp) :
    ∃ g1 tp1,
      (if isEnter then e.start env fuel g tid time else e.stop env fuel g tid time) =
        some g1 ∧
      g1.tspProfiler tid = some tp1 ∧
      tp1.stream = tp.stream ++ valueBytes (tp.nextPadding env)
        (if isEnter then RawEntry.ENTRY_FUNCTION_ENTER else RawEntry.ENTRY_FUNCTION_LEAVE)
        e.identifier time ∧
      RoomLeft n tp1 ∧ tp1.bufferSize = tp.bufferSize ∧
      tp1.outputFile.path = tp.outputFile.path ∧
      g1.eventFile = g.eventFile := by
  cases isEnter with
  | true =>
    obtain ⟨tp1, h1, h2, h3, h4, h5⟩ := write_value_room env hp fuel tp
      RawEntry.ENTRY_FUNCTION_ENTER e.identifier time n (tp.nextPadding env) (by decide)
      hdw hroom hfuel
    refine ⟨{ g with tspProfiler := Function.update g.tspProfiler tid (some tp1) }, tp1,
      ?_, by simp, by simpa using h2, h3, h4, h5, rfl⟩
    simp only [↓reduceIte, Entry.start, htp, enter, h1]
  | false =>
    obtain ⟨tp1, h1, h2, h3, h4, h5⟩ := write_value_room env hp fuel tp
      RawEntry.ENTRY_FUNCTION_LEAVE e.identifier time n (tp.nextPadding env) (by decide)
      hdw hroom hfuel
    refine ⟨{ g with tspProfiler := Function.update g.tspProfiler tid (some tp1) }, tp1,
      ?_, by simp, by simpa using h2, h3, h4, h5, rfl⟩
    simp only [Bool.false_eq_true, ↓reduceIte, Entry.stop, htp, leave, h1]

theorem runCalls_spec (env : Platform) (hp : Progress env) (fuel tid : Nat)
    (entries : List Entry) :
    ∀ (calls : List ScopeCall) (g : Globals) (tp : ThreadProfiler),
      g.tspProfiler tid = some tp → RoomLeft calls.length tp →
      tp.bufferSize < DWORD_RANGE → tp.bufferSize < fuel →
      (∀ c ∈ calls, c.scope < entries.length) →
      ∃ g3 tp3, runCalls env fuel tid entries g calls = some g3 ∧
        g3.tspProfiler tid = some tp3 ∧
        tp3.stream = tp.stream ++
          valueRecords env tp.outputFile.path tp.stream.length
            (calls.map (ScopeCall.record entries)) ∧
        tp3.outputFile.path = tp.outputFile.path ∧
        g3.eventFile = g.eventFile := by
  intro calls
  induction calls with
  | nil =>
    intro g tp htp _ _ _ _
    exact ⟨g, tp, rfl, htp, by simp [valueRecords], rfl, rfl⟩
  | cons c cs ih =>
    intro g tp htp hroom hdw hfuel hidx
    have hc : c.scope < entries.length := hidx c (List.mem_cons_self _ _)
    cases he : entries.get? c.scope with
    | none =>
      rw [List.get?_eq_none] at he
      omega
    | some e =>
      obtain ⟨g1, tp1, h1, htp1, hs1, hroom1, hb1, hp1, hev1⟩ :=
        Entry_call_spec env hp fuel e g tid c.time cs.length tp c.isEnter hdw hfuel htp hroom
      obtain ⟨g3, tp3, h3, htp3, hs3, hp3, hev3⟩ :=
        ih g1 tp1 htp1 hroom1 (by omega) (by omega)
          (fun c1 h => hidx c1 (List.mem_cons_of_mem _ h))
      refine ⟨g3, tp3, ?_, htp3, ?_, by rw [hp3, hp1], by rw [hev3, hev1]⟩
      · simp only [runCalls, he, h1, h3]
      · have he1 : entries[c.scope]? = some e := by simpa using he
        have hlen1 : tp1.stream.length = tp.stream.length + 16 := by
          rw [hs1, List.length_append, valueBytes_length]
        rw [hs3, hlen1, hp1, hs1]
        simp [valueRecords, ScopeCall.record, he1, List.append_assoc, nextPadding,
          stream_length]

/-! ## Reading 16-byte records back -/

theorem readRecord_valueBytes (padding : Nat × Nat × Nat) (type handle value : Nat)
    (rest : List Nat) (h0 : type ≠ 0) (h1 : type ≠ 1) (hlt : type < 256) :
    readRecord (valueBytes padding type handle value ++ rest) =
      some (.value type (handle % 2 ^ 32) (value % 2 ^ 64), rest) := by
  have hm : type % 256 = type := Nat.mod_eq_of_lt hlt
  have hh : handle % 256 + 256 * (handle / 256 % 256 + 256 * (handle / 256 / 256 % 256 +
      256 * (handle / 256 / 256 / 256 % 256 + 256 * 0))) = handle % 2 ^ 32 := by omega
  have hv : value % 256 + 256 * (value / 256 % 256 + 256 * (value / 256 / 256 % 256 +
      256 * (value / 256 / 256 / 256 % 256 + 256 * (value / 256 / 256 / 256 / 256 % 256 +
      256 * (value / 256 / 256 / 256 / 256 / 256 % 256 +
      256 * (value / 256 / 256 / 256 / 256 / 256 / 256 % 256 +
      256 * (value / 256 / 256 / 256 / 256 / 256 / 256 / 256 % 256 + 256 * 0))))))) =
      value % 2 ^ 64 := by omega
  simp only [valueBytes, leBytes, hm, List.cons_append, List.nil_append, readRecord, h0, h1,
    or_self, ↓reduceIte, fromLE, hh, hv]

theorem readStream_valueRecords (env : Platform) (path : String) :
    ∀ (records : List (Nat × Nat × Nat)) (offset fuel : Nat) (tail : List Nat),
      (∀ r ∈ records, r.1 ≠ 0 ∧ r.1 ≠ 1 ∧ r.1 < 256) →
      readStream (records.length + fuel) (valueRecords env path offset records ++ tail) =
        (readStream fuel tail).map (fun rs => records.map Record.ofFields ++ rs) := by
  intro records
  induction records with
  | nil =>
    intro offset fuel tail _
    simp [valueRecords]
  | cons r rs ih =>
    intro offset fuel tail hr
    obtain ⟨type, handle, value⟩ := r
    obtain ⟨h0, h1, hlt⟩ := hr (type, handle, value) (List.mem_cons_self _ _)
    have hstep : (((type, handle, value) :: rs).length + fuel) = (rs.length + fuel) + 1 := by
      simp only [List.length_cons]; omega
    have hne : (valueBytes (env.stackGarbage path offset) type handle value ++
        (valueRecords env path (offset + 16) rs ++ tail)).isEmpty = false := by
      simp [valueBytes, leBytes]
    rw [hstep]
    simp only [valueRecords, List.append_assoc, readStream, hne, Bool.false_eq_true, ↓reduceIte,
      readRecord_valueBytes _ type handle value _ h0 h1 hlt,
      ih (offset + 16) fuel tail (fun r hr1 => hr r (List.mem_cons_of_mem _ hr1))]
    cases readStream fuel tail <;> simp [Record.ofFields]

theorem progress_variedStackPlatform : Progress variedStackPlatform := by
  intro path call requested h
  exact h

/-! ## C6, C7: where scope identifiers go -/

/-- C6, as stated, fails: in the example scenario the stream of thread 7 reads back
without any function identifier record, and the events stream holds one. -/
theorem example_scenario_identifier_in_event_stream :
    exampleScenario.map (fun g =>
      ((readStream 8 (g.threadStream 7)).map hasFunctionIdentifier,
        (readStream 8 g.eventStream).map hasFunctionIdentifier)) =
      some (some false, some true) := by
  decide

/-- C6, amended: for a NUL-free name of at most 255 bytes, constructing an `Entry` on
thread `tid` after `initialize` (the events buffer within bounds and holding the record,
destination writes making progress, and, if the thread has no buffer yet, a configured
capacity of at least 16 bytes) allocates the next handle, creates the thread's buffer
first if the thread has none, so that its stream is then one frequency record, leaves an
existing buffer of the thread and the buffers of all other threads as they are, and
appends the function identifier record of the handle and the name, in the layout of
the specification, to the events stream.  In the example scenario the thread's stream
is Frequency, FunctionEnter, FunctionLeave, and the events stream is Frequency,
MainThreadIdentifier, EventIdentifier "tick", FunctionIdentifier "work", Event. -/
theorem Entry_construct_appends_identifier_to_event_stream (env : Platform) (fuel : Nat)
    (g : Globals) (tid : Nat) (name : List Nat) (ef : ThreadProfiler)
    (hp : Progress env) (hef : g.eventFile = some ef)
    (hin : ef.currentBytesWritten ≤ ef.bufferSize) (hdw : ef.bufferSize < DWORD_RANGE)
    (hfit : 6 + name.length ≤ ef.bufferSize) (hfuel : ef.bufferSize < fuel)
    (hnul : ∀ c ∈ name, c ≠ 0) (hlen : name.length ≤ 255)
    (hroom : g.tspProfiler tid = none → 16 ≤ g.globalSettings.outputBufferLength) :
    (∃ g1, Entry.construct env fuel g tid name =
        some ({ identifier := (allocateID g).1 }, g1) ∧
      g1.currentIdentifier = (allocateID g).2.currentIdentifier ∧
      g1.eventStream = g.eventStream ++
        specIdentifierRecord RawEntry.ENTRY_FUNCTION_IDENTIFIER (allocateID g).1 name ∧
      (g1.tspProfiler tid).isSome = true ∧
      g1.threadStream tid =
        g.threadStreamOr tid
          (valueBytes
            (env.stackGarbage (g.globalSettings.outputDirectory ++ "/" ++ toString tid) 0)
            RawEntry.ENTRY_FREQUENCY 0 env.frequency) ∧
      ∀ t, t ≠ tid → g1.tspProfiler t = g.tspProfiler t) ∧
    exampleScenario.map (fun g =>
      (readStream 8 (g.threadStream 7), readStream 8 g.eventStream)) =
      some (some [.value 5 0 1000, .value 2 2 10, .value 3 2 20],
        some [.value 5 0 1000, .value 6 1 0, .identifier 1 1 tickName,
          .identifier 0 2 workName, .value 4 1 30]) := by
  constructor
  · have hs := strlen_of_no_nul name hnul
    obtain ⟨g1, ef1, tp1, hc, hef1, hs1, _, _, _, _, hid, htp1, hnew, hoth, _⟩ :=
      Entry_construct_spec env hp fuel g tid name ef hef hin hdw (by rw [hs]; exact hfit)
        hfuel hroom
    refine ⟨g1, hc, hid, ?_, ?_, ?_, hoth⟩
    · simp only [Globals.eventStream, hef1, hef, hs1,
        identifierBytes_eq_spec _ _ name hnul hlen]
    · simp [htp1]
    · cases htp : g.tspProfiler tid with
      | none =>
        obtain ⟨tp, hct, hst, _⟩ := construct_spec env fuel
          g.globalSettings.outputBufferLength
          (g.globalSettings.outputDirectory ++ "/" ++ toString tid) tid (hroom htp)
        simp only [threadBufferOrNew, htp, hct, Option.some.injEq] at hnew
        subst hnew
        simp only [Globals.threadStream, htp1, Globals.threadStreamOr, htp, hst]
      | some tp =>
        simp only [threadBufferOrNew, htp, Option.some.injEq] at hnew
        subst hnew
        simp only [Globals.threadStream, htp1, Globals.threadStreamOr, htp]
  · decide

/-- Witness of the amended C6: registering "work" on thread 7 right after `initialize`
in the example scenario. -/
theorem Entry_construct_appends_identifier_to_event_stream_witness :
    (∃ g1, Entry.construct samplePlatform 65 sampleGlobals 7 workName =
        some ({ identifier := (allocateID sampleGlobals).1 }, g1) ∧
      g1.currentIdentifier = (allocateID sampleGlobals).2.currentIdentifier ∧
      g1.eventStream = sampleGlobals.eventStream ++
        specIdentifierRecord RawEntry.ENTRY_FUNCTION_IDENTIFIER (allocateID sampleGlobals).1
          workName ∧
      (g1.tspProfiler 7).isSome = true ∧
      g1.threadStream 7 =
        sampleGlobals.threadStreamOr 7
          (valueBytes
            (samplePlatform.stackGarbage
              (sampleGlobals.globalSettings.outputDirectory ++ "/" ++ toString 7) 0)
            RawEntry.ENTRY_FREQUENCY 0 samplePlatform.frequency) ∧
      ∀ t, t ≠ 7 → g1.tspProfiler t = sampleGlobals.tspProfiler t) ∧
    exampleScenario.map (fun g =>
      (readStream 8 (g.threadStream 7), readStream 8 g.eventStream)) =
      some (some [.value 5 0 1000, .value 2 2 10, .value 3 2 20],
        some [.value 5 0 1000, .value 6 1 0, .identifier 1 1 tickName,
          .identifier 0 2 workName, .value 4 1 30]) :=
  Entry_construct_appends_identifier_to_event_stream samplePlatform 65 sampleGlobals 7
    workName sampleEventFile (progress_fullWrites 1000 (170, 187, 204)) rfl (by decide)
    (by decide) (by decide) (by decide) (by decide) (by decide) (fun _ => by decide)

/-- C7, as stated, fails: after `initialize`, thread 7 registers the scope "work", enters
it and leaves it; its stream reads back as Frequency, FunctionEnter, FunctionLeave, and
the enter record is preceded by no function identifier record of its handle. -/
theorem scope_session_stream_not_self_describing :
    (scopeSession samplePlatform 65 exampleSettings 1 0 7 [workName] sampleCalls).map
      (fun r => (readStream 8 (r.2.threadStream 7),
        (readStream 8 (r.2.threadStream 7)).map (selfDescribing []))) =
      some (some [.value 5 0 1000, .value 2 1 10, .value 3 1 20], some false) := by
  decide

/-- C7, amended: for every non-empty sequence of registrations of scopes with NUL-free
names of at most 255 bytes, followed by scope enters and leaves on the registered
scopes, performed on one thread after `initialize` (with a capacity below 2^32 that
holds each identifier record and with which no 16-byte copy passes the end of a
buffer, and writes that make progress), the session runs to its end; the thread's
stream is the frequency record followed by the enter and leave records in call order,
each a 16-byte record with the padding bytes of its own `RawEntry`, and reads back as
exactly these records, none of them an identifier; and the function identifier records
of the registered scopes, in the layout of the specification, are in the events stream,
in registration order, after its frequency and main thread records. -/
theorem scope_session_streams (env : Platform) (fuel : Nat) (settings : Settings)
    (mainTid wallclock tid : Nat) (names : List (List Nat)) (calls : List ScopeCall)
    (hp : Progress env) (hdw : settings.outputBufferLength < DWORD_RANGE)
    (hfuel : settings.outputBufferLength < fuel)
    (hevents : RoomFor 2 settings.outputBufferLength)
    (hthread : RoomFor (calls.length + 1) settings.outputBufferLength)
    (hnames : ∀ name ∈ names, 6 + name.length ≤ settings.outputBufferLength ∧
      name.length ≤ 255 ∧ ∀ c ∈ name, c ≠ 0)
    (hne : names ≠ []) (hidx : ∀ c ∈ calls, c.scope < names.length) :
    ∃ entries g tp ef,
      scopeSession env fuel settings mainTid wallclock tid names calls = some (entries, g) ∧
      entries.length = names.length ∧
      g.tspProfiler tid = some tp ∧
      tp.stream = valueRecords env tp.outputFile.path 0
        ((RawEntry.ENTRY_FREQUENCY, 0, env.frequency) ::
          calls.map (ScopeCall.record entries)) ∧
      readStream (calls.length + 2) tp.stream =
        some (((RawEntry.ENTRY_FREQUENCY, 0, env.frequency) ::
          calls.map (ScopeCall.record entries)).map Record.ofFields) ∧
      g.eventFile = some ef ∧
      ef.stream = valueRecords env ef.outputFile.path 0
          [(RawEntry.ENTRY_FREQUENCY, 0, env.frequency),
            (RawEntry.ENTRY_MAIN_THREAD_IDENTIFIER, mainTid, 0)] ++
        (List.zipWith
          (fun e name =>
            specIdentifierRecord RawEntry.ENTRY_FUNCTION_IDENTIFIER e.identifier name)
          entries names).flatten := by
  obtain ⟨g1, ef, hi, hef, hs, hin, hb, hset, _, htsp, _⟩ :=
    initializeProfiler_spec env fuel Globals.startup settings mainTid wallclock hevents
      (fun _ => ⟨hp, by have := hevents.1; omega⟩)
  have hnone : g1.tspProfiler tid = none := by rw [htsp]; rfl
  obtain ⟨entries, g2, ef2, hr, hlen, hef2, hs2, hp2, hnew2, hsome2⟩ :=
    registerAll_spec env hp fuel tid names g1 ef hef hin (by omega) (by omega)
      (fun _ => by rw [hset]; exact hevents.1)
      (fun n hn => by rw [hb]; exact hnames n hn)
  obtain ⟨tp2, htp2⟩ := Option.isSome_iff_exists.mp (hsome2 (Or.inl hne))
  obtain ⟨tp, hct, hst, hc, hbt, hft⟩ := construct_spec env fuel
    g1.globalSettings.outputBufferLength
    (g1.globalSettings.outputDirectory ++ "/" ++ toString tid) tid
    (by rw [hset]; exact hevents.1)
  have heq : tp2 = tp := by
    have h1 : threadBufferOrNew env fuel g2 tid = some tp2 := by
      simp only [threadBufferOrNew, htp2]
    have h2 : threadBufferOrNew env fuel g1 tid = some tp := by
      simp only [threadBufferOrNew, hnone, hct]
    rw [hnew2, h2] at h1
    exact (Option.some.inj h1).symm
  subst heq
  have hpath : tp2.outputFile.path =
      g1.globalSettings.outputDirectory ++ "/" ++ toString tid := by
    rw [hft]; rfl
  have hlen2 : tp2.stream.length = 16 := by rw [hst, valueBytes_length]
  obtain ⟨g3, tp3, h3, htp3, hs3, hp3, hev3⟩ :=
    runCalls_spec env hp fuel tid entries calls g2 tp2 htp2
      (roomLeft_of_constructed calls.length settings.outputBufferLength tp2 hthread hc
        (by rw [hbt, hset]))
      (by rw [hbt, hset]; exact hdw) (by rw [hbt, hset]; exact hfuel)
      (by rw [hlen]; exact hidx)
  have hbytes : tp3.stream = valueRecords env tp3.outputFile.path 0
      ((RawEntry.ENTRY_FREQUENCY, 0, env.frequency) ::
        calls.map (ScopeCall.record entries)) := by
    rw [hs3, hlen2, hst, hp3, hpath]
    simp [valueRecords]
  refine ⟨entries, g3, tp3, ef2, ?_, hlen, htp3, hbytes, ?_, by rw [hev3, hef2], ?_⟩
  · simp only [scopeSession, hi, hr, h3]
  · have hread := readStream_valueRecords env tp3.outputFile.path
      ((RawEntry.ENTRY_FREQUENCY, 0, env.frequency) :: calls.map (ScopeCall.record entries))
      0 1 [] (by
        intro r hr1
        rcases List.mem_cons.mp hr1 with h | h
        · subst h; simp [RawEntry.ENTRY_FREQUENCY]
        · obtain ⟨c, _, hc1⟩ := List.mem_map.mp h
          subst hc1
          cases hce : c.isEnter <;> simp [ScopeCall.record, hce] <;> decide)
    rw [hbytes]
    simpa [readStream, Nat.add_comm] using hread
  · rw [hs2, hs, hp2]

/-- Witness of the amended C7: the session of the example scenario, thread 7
registering "work", entering it at tick 10 and leaving it at tick 20, on a platform
where the first `RawEntry` of a stream has padding 00 00 00 and the later ones have
27 FF E3. -/
theorem scope_session_streams_witness :
    ∃ entries g tp ef,
      scopeSession variedStackPlatform 65 exampleSettings 1 0 7 [workName] sampleCalls =
        some (entries, g) ∧
      entries.length = [workName].length ∧
      g.tspProfiler 7 = some tp ∧
      tp.stream = valueRecords variedStackPlatform tp.outputFile.path 0
        ((RawEntry.ENTRY_FREQUENCY, 0, variedStackPlatform.frequency) ::
          sampleCalls.map (ScopeCall.record entries)) ∧
      readStream (sampleCalls.length + 2) tp.stream =
        some (((RawEntry.ENTRY_FREQUENCY, 0, variedStackPlatform.frequency) ::
          sampleCalls.map (ScopeCall.record entries)).map Record.ofFields) ∧
      g.eventFile = some ef ∧
      ef.stream = valueRecords variedStackPlatform ef.outputFile.path 0
          [(RawEntry.ENTRY_FREQUENCY, 0, variedStackPlatform.frequency),
            (RawEntry.ENTRY_MAIN_THREAD_IDENTIFIER, 1, 0)] ++
        (List.zipWith
          (fun e name =>
            specIdentifierRecord RawEntry.ENTRY_FUNCTION_IDENTIFIER e.identifier name)
          entries [workName]).flatten :=
  scope_session_streams variedStackPlatform 65 exampleSettings 1 0 7 [workName] sampleCalls
    progress_variedStackPlatform (by decide) (by decide) ⟨by decide, Or.inl (by decide)⟩
    ⟨by decide, Or.inl (by decide)⟩ (by decide) (by decide) (by decide)

/-! ## C9, C10: flush -/

/-- C9: when every call of the write primitive that is asked for at least one byte
transfers at least one (and, as `WriteFile` does, never more than asked), and the
pending byte count fits the `DWORD` length parameter, `ThreadProfiler::flush` returns
(any fuel above the pending count suffices), after at most one write attempt per
pending byte; the file has gained exactly the first `currentBytesWritten` bytes of the
buffer, in order; `currentBytesWritten` is 0; and at every pass of the retry loop the
bytes transferred so far are exactly the first `offset + count` bytes of the buffer,
which is where the next attempt resumes. -/
theorem flush_transfers_pending_in_order (env : Platform) (st : ThreadProfiler) (fuel : Nat)
    (hp : Progress env) (hdw : st.currentBytesWritten < DWORD_RANGE)
    (hfuel : st.currentBytesWritten < fuel) :
    (∃ st1, ThreadProfiler.flush env fuel st = some st1 ∧
      st1.outputFile.written =
        st.outputFile.written ++ readBytes st.outputBuffer 0 st.currentBytesWritten ∧
      st1.currentBytesWritten = 0 ∧
      st1.outputFile.calls ≤ st.outputFile.calls + st.currentBytesWritten ∧
      st1.outputFile.path = st.outputFile.path ∧
      st1.bufferSize = st.bufferSize) ∧
    ∀ n st1 offset count, flushIter env n st 0 0 = some (st1, offset, count) →
      offset + count ≤ st.currentBytesWritten ∧
      st1.outputFile.written =
        st.outputFile.written ++ readBytes st.outputBuffer 0 (offset + count) := by
  constructor
  · obtain ⟨k, hk, h⟩ := flush_spec env hp fuel st hdw hfuel
    refine ⟨_, h, ?_, rfl, ?_, rfl, rfl⟩
    · rfl
    · simp only; omega
  · intro n st1 offset count h
    obtain ⟨_, h2, _, _, h5⟩ := flushIter_spec env n st st1 0 0 offset count (by omega) h
    exact ⟨h2, by simpa using h5⟩

/-- Witness of C9: one-byte writes drain the three pending bytes of `sampleBuffer`. -/
theorem flush_transfers_pending_in_order_witness :
    Progress (shortWrites 1 (0, 0, 0)) ∧
    sampleBuffer.currentBytesWritten < DWORD_RANGE ∧
    sampleBuffer.currentBytesWritten < 4 ∧
    ((∃ st1, ThreadProfiler.flush (shortWrites 1 (0, 0, 0)) 4 sampleBuffer = some st1 ∧
      st1.outputFile.written =
        sampleBuffer.outputFile.written ++
          readBytes sampleBuffer.outputBuffer 0 sampleBuffer.currentBytesWritten ∧
      st1.currentBytesWritten = 0 ∧
      st1.outputFile.calls ≤ sampleBuffer.outputFile.calls + sampleBuffer.currentBytesWritten ∧
      st1.outputFile.path = sampleBuffer.outputFile.path ∧
      st1.bufferSize = sampleBuffer.bufferSize) ∧
    ∀ n st1 offset count,
      flushIter (shortWrites 1 (0, 0, 0)) n sampleBuffer 0 0 = some (st1, offset, count) →
      offset + count ≤ sampleBuffer.currentBytesWritten ∧
      st1.outputFile.written =
        sampleBuffer.outputFile.written ++
          readBytes sampleBuffer.outputBuffer 0 (offset + count)) :=
  ⟨progress_shortWrites 1 (0, 0, 0), by decide, by decide,
    flush_transfers_pending_in_order (shortWrites 1 (0, 0, 0)) sampleBuffer 4
      (progress_shortWrites 1 (0, 0, 0)) (by decide) (by decide)⟩

/-- C10, as stated, fails: on a destination where every write transfers 0 bytes,
`flush` of a buffer with three pending bytes returns for no amount of fuel. -/
theorem flush_never_returns_on_broken_destination :
    ¬ ∃ fuel st1,
      ThreadProfiler.flush (brokenWrites 1 (0, 0, 0)) fuel sampleBuffer = some st1 := by
  rintro ⟨fuel, st1, h⟩
  have hstuck := flushLoop_stuck (brokenWrites 1 (0, 0, 0)) fuel sampleBuffer
    (fun _ _ => rfl) (by decide)
  unfold ThreadProfiler.flush unprotectedFlush at h
  rw [hstuck] at h
  exact Option.noConfusion h

/-- C10, amended: when every write on the buffer's file transfers 0 bytes and at least
one byte is pending, `ThreadProfiler::flush` never returns, and so reports nothing:
after any number `n` of passes through the retry loop the loop is still running with
`offset = 0` and `count = 0`, the file and the buffer are unchanged, and `n` write
attempts have been made. -/
theorem flush_retries_forever_when_writes_fail (env : Platform) (st : ThreadProfiler)
    (hfail : ∀ call requested, env.transfer st.outputFile.path call requested = 0)
    (hpend : 0 < st.currentBytesWritten) :
    (∀ fuel, ThreadProfiler.flush env fuel st = none) ∧
    ∀ n, flushIter env n st 0 0 =
      some ({ st with outputFile :=
        { st.outputFile with calls := st.outputFile.calls + n } }, 0, 0) := by
  constructor
  · intro fuel
    simp [ThreadProfiler.flush, unprotectedFlush, flushLoop_stuck env fuel st hfail hpend]
  · intro n
    exact flushIter_stuck env n st hfail hpend

/-- Witness of the amended C10 on `sampleBuffer`. -/
theorem flush_retries_forever_when_writes_fail_witness :
    (∀ call requested,
      (brokenWrites 1 (0, 0, 0)).transfer sampleBuffer.outputFile.path call requested = 0) ∧
    0 < sampleBuffer.currentBytesWritten ∧
    ((∀ fuel, ThreadProfiler.flush (brokenWrites 1 (0, 0, 0)) fuel sampleBuffer = none) ∧
    ∀ n, flushIter (brokenWrites 1 (0, 0, 0)) n sampleBuffer 0 0 =
      some ({ sampleBuffer with outputFile :=
        { sampleBuffer.outputFile with calls := sampleBuffer.outputFile.calls + n } }, 0, 0)) :=
  ⟨fun _ _ => rfl, by decide,
    flush_retries_forever_when_writes_fail (brokenWrites 1 (0, 0, 0)) sampleBuffer
      (fun _ _ => rfl) (by decide)⟩

/-! ## C11: handle allocation -/

theorem allocateID_spec (g : Globals) (c : Nat) (hc : g.currentIdentifier = (c : Int))
    (hb : c + 1 < 2 ^ 63) :
    (allocateID g).1 = (c + 1) % 2 ^ 32 ∧
      (allocateID g).2.currentIdentifier = ((c + 1 : Nat) : Int) := by
  have e : wrapInt64 (g.currentIdentifier + 1) = ((c + 1 : Nat) : Int) := by
    rw [hc]
    unfold wrapInt64
    omega
  constructor
  · show ((wrapInt64 (g.currentIdentifier + 1)) % 2 ^ 32).toNat = _
    rw [e]
    omega
  · exact e

theorem allocateNth_spec :
    ∀ (k : Nat) (g : Globals) (c : Nat), g.currentIdentifier = (c : Int) →
      c + k + 1 < 2 ^ 63 →
      (allocateNth k g).1 = (c + k + 1) % 2 ^ 32 := by
  intro k
  induction k with
  | zero =>
    intro g c hc hb
    exact (allocateID_spec g c hc (by omega)).1
  | succ k ih =>
    intro g c hc hb
    have h := (allocateID_spec g c hc (by omega)).2
    have hk := ih (allocateID g).2 (c + 1) h (by omega)
    simp only [allocateNth]
    rw [hk]
    congr 1
    omega

theorem allocateID_lt (g : Globals) : (allocateID g).1 < 2 ^ 32 := by
  show ((wrapInt64 (g.currentIdentifier + 1)) % 2 ^ 32).toNat < 2 ^ 32
  omega

/-- C11, as stated, fails: after `initialize`, the first allocation and the allocation
that follows 2^32 others both return the handle 1. -/
theorem handle_repeats_after_wrap :
    (allocateNth 0 sampleGlobals).1 = 1 ∧ (allocateNth (2 ^ 32) sampleGlobals).1 = 1 := by
  have h0 : sampleGlobals.currentIdentifier = ((0 : Nat) : Int) := by decide
  exact ⟨(allocateNth_spec 0 sampleGlobals 0 h0 (by norm_num)).trans (by norm_num),
    (allocateNth_spec (2 ^ 32) sampleGlobals 0 h0 (by norm_num)).trans (by norm_num)⟩

/-- C11, amended: after `initialize` (the counter is 0), the allocation that follows `k`
others returns the handle `(k + 1) mod 2^32`, so any two allocations that are fewer than
2^32 allocations apart, in particular any two of the first 2^32, return different
handles. -/
theorem handles_differ_within_window (g : Globals) (i j : Nat)
    (hz : g.currentIdentifier = 0) (hij : i < j) (hwin : j < i + 2 ^ 32)
    (hb : j + 1 < 2 ^ 63) :
    (allocateNth i g).1 ≠ (allocateNth j g).1 ∧
      (allocateNth i g).1 = (i + 1) % 2 ^ 32 ∧
      (allocateNth j g).1 = (j + 1) % 2 ^ 32 := by
  have h0 : g.currentIdentifier = ((0 : Nat) : Int) := by rw [hz]; rfl
  have hi := allocateNth_spec i g 0 h0 (by omega)
  have hj := allocateNth_spec j g 0 h0 (by omega)
  rw [Nat.zero_add] at hi hj
  refine ⟨?_, hi, hj⟩
  rw [hi, hj]
  intro h
  have h1 : ((i + 1) % 2 ^ 32 : Nat) = (j + 1) % 2 ^ 32 := h
  rcases Nat.lt_trichotomy ((i + 1) / 2 ^ 32) ((j + 1) / 2 ^ 32) with hlt | heq | hgt <;>
    omega

/-- Witness of the amended C11: the first two allocations after `initialize`. -/
theorem handles_differ_within_window_witness :
    (allocateNth 0 sampleGlobals).1 ≠ (allocateNth 1 sampleGlobals).1 ∧
      (allocateNth 0 sampleGlobals).1 = (0 + 1) % 2 ^ 32 ∧
      (allocateNth 1 sampleGlobals).1 = (1 + 1) % 2 ^ 32 :=
  handles_differ_within_window sampleGlobals 0 1 (by decide) (by decide) (by norm_num)
    (by norm_num)

/-! ## C12: threads without a buffer -/

/-- C12, evaluated: thread 7 registers the scope "work" after `initialize`; thread 8 has
no buffer.  `Entry::start`, `Entry::stop` and `raiseThreadLocalEvent` called by thread 8
dereference the null `tspProfiler` and have no result, where the same `start` called by
thread 7 succeeds, and where `Entry::Entry` called by thread 8 creates the buffer. -/
theorem recording_calls_use_absent_buffer :
    (Entry.construct samplePlatform 65 sampleGlobals 7 workName).map (fun r =>
      ((r.2.tspProfiler 8).isNone,
        (r.1.start samplePlatform 65 r.2 8 10).isNone,
        (r.1.stop samplePlatform 65 r.2 8 20).isNone,
        (raiseThreadLocalEvent samplePlatform 65 r.2 8 1 30).isNone,
        (r.1.start samplePlatform 65 r.2 7 10).isSome,
        ((Entry.construct samplePlatform 65 r.2 8 tickName).map
          (fun r1 => (r1.2.tspProfiler 8).isSome)))) =
      some (true, true, true, true, true, some true) := by
  decide

/-! ## C13: event registration -/

theorem allocateEvent_spec (env : Platform) (hp : Progress env) (fuel : Nat) (g : Globals)
    (ef : ThreadProfiler) (name : List Nat)
    (hef : g.eventFile = some ef) (hin : ef.currentBytesWritten ≤ ef.bufferSize)
    (hdw : ef.bufferSize < DWORD_RANGE) (hfit : 6 + strlen name ≤ ef.bufferSize)
    (hfuel : ef.bufferSize < fuel) :
    ∃ g1 ef1, allocateEvent env fuel g name = some ((allocateID g).1, g1) ∧
      g1.currentIdentifier = (allocateID g).2.currentIdentifier ∧
      g1.eventFile = some ef1 ∧
      ef1.outputFile.written = ef.stream ++
        identifierBytes RawEntry.ENTRY_EVENT_IDENTIFIER (allocateID g).1 name ∧
      ef1.currentBytesWritten = 0 ∧
      ef1.bufferSize = ef.bufferSize ∧
      g1.tspProfiler = g.tspProfiler ∧
      g1.activeThreads = g.activeThreads ∧
      g1.globalSettings = g.globalSettings := by
  obtain ⟨ef1, hw, hs, _, hin1, hsz1, _, _⟩ := write_identifier_spec env hp fuel ef
    { type := RawEntry.ENTRY_EVENT_IDENTIFIER, padding := ef.nextPadding env,
      integralData := (allocateID g).1, variantData := .name name } name
    (Or.inr rfl) rfl hdw hin hfit hfuel
  obtain ⟨k, _, hf⟩ := flush_spec env hp fuel ef1 (by omega) (by omega)
  refine ⟨{ g with
    currentIdentifier := (allocateID g).2.currentIdentifier,
    eventFile := some { ef1 with
      outputFile := { ef1.outputFile with
        written := ef1.outputFile.written ++ ef1.pending,
        calls := ef1.outputFile.calls + k },
      currentBytesWritten := 0 } }, _, ?_, rfl, rfl, ?_, rfl, hsz1, rfl, rfl, rfl⟩
  · simp only [allocateEvent, allocateID, hef]
    simp only [allocateID] at hw
    rw [hw]
    simp only [hf]
  · exact hs

/-- C13: for every NUL-free event name of at most 255 bytes, with an events buffer that
is within bounds and holds the record and destination writes that make progress,
`allocateEvent(name)` returns the handle `allocateID` allocates (a 32-bit value, the
counter having advanced); when it returns, the events file ends with the event
identifier record of that handle and the name, in the layout of the specification,
which the forward-only reader decodes back, and the events buffer has no pending bytes.
Nothing else changes. -/
theorem allocateEvent_identifier_is_durable (env : Platform) (fuel : Nat) (g : Globals)
    (ef : ThreadProfiler) (name : List Nat)
    (hp : Progress env) (hef : g.eventFile = some ef)
    (hin : ef.currentBytesWritten ≤ ef.bufferSize) (hdw : ef.bufferSize < DWORD_RANGE)
    (hfit : 6 + name.length ≤ ef.bufferSize) (hfuel : ef.bufferSize < fuel)
    (hnul : ∀ c ∈ name, c ≠ 0) (hlen : name.length ≤ 255) :
    ∃ g1 ef1, allocateEvent env fuel g name = some ((allocateID g).1, g1) ∧
      g1.currentIdentifier = (allocateID g).2.currentIdentifier ∧
      (allocateID g).1 < 2 ^ 32 ∧
      g1.eventFile = some ef1 ∧
      ef1.outputFile.written = ef.outputFile.written ++ ef.pending ++
        specIdentifierRecord RawEntry.ENTRY_EVENT_IDENTIFIER (allocateID g).1 name ∧
      ef1.currentBytesWritten = 0 ∧ ef1.pending = [] ∧
      g1.tspProfiler = g.tspProfiler ∧ g1.activeThreads = g.activeThreads ∧
      ∀ rest, decodeIdentifier
        (specIdentifierRecord RawEntry.ENTRY_EVENT_IDENTIFIER (allocateID g).1 name ++ rest) =
          some (RawEntry.ENTRY_EVENT_IDENTIFIER, (allocateID g).1, name, rest) := by
  have hs := strlen_of_no_nul name hnul
  obtain ⟨g1, ef1, h1, h2, h3, h4, h5, _, h6, h7, _⟩ :=
    allocateEvent_spec env hp fuel g ef name hef hin hdw (by rw [hs]; exact hfit) hfuel
  have hmod : name.length % 256 = name.length := Nat.mod_eq_of_lt (by omega)
  have hrec : identifierBytes RawEntry.ENTRY_EVENT_IDENTIFIER (allocateID g).1 name =
      specIdentifierRecord RawEntry.ENTRY_EVENT_IDENTIFIER (allocateID g).1 name := by
    simp only [identifierBytes, specIdentifierRecord, hs, hmod, List.take_length]
  refine ⟨g1, ef1, h1, h2, allocateID_lt g, h3, ?_, h5, ?_, h6, h7, ?_⟩
  · rw [h4, hrec]
    rfl
  · simp [pending, h5, readBytes_zero]
  · intro rest
    have hd := decodeIdentifier_record RawEntry.ENTRY_EVENT_IDENTIFIER (allocateID g).1 name
      rest (Or.inr rfl) (allocateID_lt g)
    simpa [specIdentifierRecord, leBytes] using hd

/-- Witness of C13: the event "tick" right after `initialize` in the example scenario. -/
theorem allocateEvent_identifier_is_durable_witness :
    ∃ g1 ef1, allocateEvent samplePlatform 65 sampleGlobals tickName =
        some ((allocateID sampleGlobals).1, g1) ∧
      g1.currentIdentifier = (allocateID sampleGlobals).2.currentIdentifier ∧
      (allocateID sampleGlobals).1 < 2 ^ 32 ∧
      g1.eventFile = some ef1 ∧
      ef1.outputFile.written = sampleEventFile.outputFile.written ++ sampleEventFile.pending ++
        specIdentifierRecord RawEntry.ENTRY_EVENT_IDENTIFIER (allocateID sampleGlobals).1
          tickName ∧
      ef1.currentBytesWritten = 0 ∧ ef1.pending = [] ∧
      g1.tspProfiler = sampleGlobals.tspProfiler ∧
      g1.activeThreads = sampleGlobals.activeThreads ∧
      ∀ rest, decodeIdentifier
        (specIdentifierRecord RawEntry.ENTRY_EVENT_IDENTIFIER (allocateID sampleGlobals).1
          tickName ++ rest) =
          some (RawEntry.ENTRY_EVENT_IDENTIFIER, (allocateID sampleGlobals).1, tickName, rest) :=
  allocateEvent_identifier_is_durable samplePlatform 65 sampleGlobals sampleEventFile tickName
    (progress_fullWrites 1000 (170, 187, 204)) rfl (by decide) (by decide) (by decide)
    (by decide) (by decide) (by decide)

/-! ## C15, C16: the global flush and teardown -/

theorem flushEach_spec (env : Platform) (hp : Progress env) (fuel : Nat) :
    ∀ (ps : List Nat) (g : Globals),
      (∀ p ∈ ps, ∃ tp, g.tspProfiler p = some tp ∧
        tp.currentBytesWritten < DWORD_RANGE ∧ tp.currentBytesWritten < fuel) →
      ∃ g1, flushEach env fuel g ps = some g1 ∧
        g1.activeThreads = g.activeThreads ∧ g1.eventFile = g.eventFile ∧
        g1.globalSettings = g.globalSettings ∧
        g1.currentIdentifier = g.currentIdentifier ∧
        (∀ p, p ∉ ps → g1.tspProfiler p = g.tspProfiler p) ∧
        (∀ p ∈ ps, ∀ tp, g.tspProfiler p = some tp →
          ∃ tp1, g1.tspProfiler p = some tp1 ∧ tp1.currentBytesWritten = 0 ∧
            tp1.outputFile.written = tp.outputFile.written ++ tp.pending ∧
            tp1.bufferSize = tp.bufferSize ∧
            tp1.outputFile.path = tp.outputFile.path) := by
  intro ps
  induction ps with
  | nil =>
    intro g _
    exact ⟨g, rfl, rfl, rfl, rfl, rfl, fun _ _ => rfl, fun p hp => absurd hp (List.not_mem_nil p)⟩
  | cons p ps ih =>
    intro g hlive
    obtain ⟨tp, htp, hdw, hfuel⟩ := hlive p (List.mem_cons_self _ _)
    obtain ⟨k, _, hf⟩ := flush_spec env hp fuel tp hdw hfuel
    obtain ⟨tpf, htpf⟩ : ∃ tpf, tpf = ({ tp with
        outputFile := { tp.outputFile with
          written := tp.outputFile.written ++ tp.pending,
          calls := tp.outputFile.calls + k },
        currentBytesWritten := 0 } : ThreadProfiler) := ⟨_, rfl⟩
    rw [← htpf] at hf
    have hlive1 : ∀ q ∈ ps, ∃ tq,
        ({ g with tspProfiler := Function.update g.tspProfiler p (some tpf) } :
          Globals).tspProfiler q = some tq ∧
          tq.currentBytesWritten < DWORD_RANGE ∧ tq.currentBytesWritten < fuel := by
      intro q hq
      by_cases hqp : q = p
      · subst hqp
        refine ⟨tpf, by simp, ?_, ?_⟩
        · rw [htpf]; exact Nat.lt_of_le_of_lt (Nat.zero_le _) hdw
        · rw [htpf]; exact Nat.lt_of_le_of_lt (Nat.zero_le _) hfuel
      · obtain ⟨tq, h1, h2, h3⟩ := hlive q (List.mem_cons_of_mem _ hq)
        exact ⟨tq, by simp [Function.update_noteq hqp, h1], h2, h3⟩
    obtain ⟨g1, hrun, hact, hev, hset, hid, hframe, hdone⟩ := ih _ hlive1
    refine ⟨g1, ?_, hact, hev, hset, hid, ?_, ?_⟩
    · simp only [flushEach, htp, hf]
      exact hrun
    · intro q hq
      have hqp : q ≠ p := fun h => hq (h ▸ List.mem_cons_self _ _)
      have hqps : q ∉ ps := fun h => hq (List.mem_cons_of_mem _ h)
      rw [hframe q hqps]
      simp [Function.update_noteq hqp]
    · intro q hq tq htq
      by_cases hqps : q ∈ ps
      · by_cases hqp : q = p
        · subst hqp
          rw [htp] at htq
          cases htq
          obtain ⟨t1, h1, h2, h3, h4, h5⟩ := hdone q hqps tpf (by simp)
          refine ⟨t1, h1, h2, ?_, ?_, ?_⟩
          · rw [h3, htpf]
            simp [pending, readBytes_zero]
          · rw [h4, htpf]
          · rw [h5, htpf]
        · exact hdone q hqps tq (by simp [Function.update_noteq hqp, htq])
      · have hqp : q = p := by
          rcases List.mem_cons.mp hq with h | h
          · exact h
          · exact absurd h hqps
        subst hqp
        rw [htp] at htq
        cases htq
        refine ⟨tpf, ?_, ?_, ?_, ?_, ?_⟩
        · rw [hframe q hqps]
          simp
        · rw [htpf]
        · rw [htpf]
        · rw [htpf]
        · rw [htpf]

/-- C15: when every buffer in the live set exists with a pending count below 2^32 and
destination writes make progress, the global `flush()` returns; afterwards every buffer
that was in the live set has no pending bytes and its file has gained exactly its
previously pending bytes, in order; the live set, the buffers of threads outside it and
the events buffer (pending bytes and file) are unchanged. -/
theorem global_flush_drains_live_buffers (env : Platform) (fuel : Nat) (g : Globals)
    (hp : Progress env)
    (hlive : ∀ p ∈ g.activeThreads, ∃ tp, g.tspProfiler p = some tp ∧
      tp.currentBytesWritten < DWORD_RANGE ∧ tp.currentBytesWritten < fuel) :
    ∃ g1, flush env fuel g = some g1 ∧
      g1.activeThreads = g.activeThreads ∧
      g1.eventFile = g.eventFile ∧
      (∀ p ∈ g.activeThreads, ∀ tp, g.tspProfiler p = some tp →
        ∃ tp1, g1.tspProfiler p = some tp1 ∧ tp1.currentBytesWritten = 0 ∧
          tp1.pending = [] ∧
          tp1.outputFile.written = tp.outputFile.written ++ tp.pending) ∧
      (∀ p, p ∉ g.activeThreads → g1.tspProfiler p = g.tspProfiler p) := by
  obtain ⟨g1, hrun, hact, hev, _, _, hframe, hdone⟩ :=
    flushEach_spec env hp fuel g.activeThreads g hlive
  refine ⟨g1, hrun, hact, hev, ?_, hframe⟩
  intro p hp tp htp
  obtain ⟨tp1, h1, h2, h3, _⟩ := hdone p hp tp htp
  exact ⟨tp1, h1, h2, by simp [pending, h2, readBytes_zero], h3⟩

theorem sampleLive_buffers :
    ∀ p ∈ sampleLiveGlobals.activeThreads, ∃ tp, sampleLiveGlobals.tspProfiler p = some tp ∧
      tp.currentBytesWritten < DWORD_RANGE ∧ tp.currentBytesWritten < 65 := by
  intro p hp
  have hact : sampleLiveGlobals.activeThreads = [7] := by decide
  rw [hact] at hp
  have h7 : p = 7 := by simpa using hp
  subst h7
  exact ⟨sampleLiveBuffer, rfl, by decide, by decide⟩

/-- Witness of C15: the global flush while thread 7 has 32 pending bytes and the events
buffer 42. -/
theorem global_flush_drains_live_buffers_witness :
    ∃ g1, flush samplePlatform 65 sampleLiveGlobals = some g1 ∧
      g1.activeThreads = sampleLiveGlobals.activeThreads ∧
      g1.eventFile = sampleLiveGlobals.eventFile ∧
      (∀ p ∈ sampleLiveGlobals.activeThreads, ∀ tp, sampleLiveGlobals.tspProfiler p = some tp →
        ∃ tp1, g1.tspProfiler p = some tp1 ∧ tp1.currentBytesWritten = 0 ∧
          tp1.pending = [] ∧
          tp1.outputFile.written = tp.outputFile.written ++ tp.pending) ∧
      (∀ p, p ∉ sampleLiveGlobals.activeThreads →
        g1.tspProfiler p = sampleLiveGlobals.tspProfiler p) :=
  global_flush_drains_live_buffers samplePlatform 65 sampleLiveGlobals
    (progress_fullWrites 1000 (170, 187, 204)) sampleLive_buffers

/-- C16: when every buffer in the live set and the events buffer exist with pending
counts below 2^32 and destination writes make progress, `deinitalize()` returns;
afterwards every buffer that was in the live set has no pending bytes and its file holds
its earlier bytes followed by the bytes that were pending; the events file, as the
destructor leaves it, holds its earlier bytes followed by the bytes that were pending in
the events buffer; the live set is unchanged; and no object is behind `eventFile`. -/
theorem deinitalize_leaves_nothing_pending (env : Platform) (fuel : Nat) (g : Globals)
    (ef : ThreadProfiler) (hp : Progress env)
    (hlive : ∀ p ∈ g.activeThreads, ∃ tp, g.tspProfiler p = some tp ∧
      tp.currentBytesWritten < DWORD_RANGE ∧ tp.currentBytesWritten < fuel)
    (hef : g.eventFile = some ef) (hdw : ef.currentBytesWritten < DWORD_RANGE)
    (hfuel : ef.currentBytesWritten < fuel) :
    ∃ g1 file, deinitalize env fuel g = some (g1, file) ∧
      file.written = ef.outputFile.written ++ ef.pending ∧
      file.path = ef.outputFile.path ∧
      g1.eventFile = none ∧
      g1.activeThreads = g.activeThreads ∧
      (∀ p ∈ g.activeThreads, ∀ tp, g.tspProfiler p = some tp →
        ∃ tp1, g1.tspProfiler p = some tp1 ∧ tp1.currentBytesWritten = 0 ∧
          tp1.pending = [] ∧
          tp1.outputFile.written = tp.outputFile.written ++ tp.pending) := by
  obtain ⟨g1, hrun, hact, hev, _, _, _, hdone⟩ :=
    flushEach_spec env hp fuel g.activeThreads g hlive
  obtain ⟨k, _, hf⟩ := flush_spec env hp fuel ef hdw hfuel
  refine ⟨{ g1 with eventFile := none },
    { ef.outputFile with
      written := ef.outputFile.written ++ ef.pending,
      calls := ef.outputFile.calls + k }, ?_, rfl, rfl, rfl, hact, ?_⟩
  · have hrun1 : flush env fuel g = some g1 := hrun
    simp only [deinitalize, hrun1, hev, hef, ThreadProfiler.destroy, hf]
  · intro p hp tp htp
    obtain ⟨tp1, h1, h2, h3, _⟩ := hdone p hp tp htp
    exact ⟨tp1, h1, h2, by simp [pending, h2, readBytes_zero], h3⟩

/-- Witness of C16: `deinitalize()` while thread 7 has 32 pending bytes and the events
buffer 42. -/
theorem deinitalize_leaves_nothing_pending_witness :
    ∃ g1 file, deinitalize samplePlatform 65 sampleLiveGlobals = some (g1, file) ∧
      file.written = sampleLiveEventFile.outputFile.written ++ sampleLiveEventFile.pending ∧
      file.path = sampleLiveEventFile.outputFile.path ∧
      g1.eventFile = none ∧
      g1.activeThreads = sampleLiveGlobals.activeThreads ∧
      (∀ p ∈ sampleLiveGlobals.activeThreads, ∀ tp, sampleLiveGlobals.tspProfiler p = some tp →
        ∃ tp1, g1.tspProfiler p = some tp1 ∧ tp1.currentBytesWritten = 0 ∧
          tp1.pending = [] ∧
          tp1.outputFile.written = tp.outputFile.written ++ tp.pending) :=
  deinitalize_leaves_nothing_pending samplePlatform 65 sampleLiveGlobals sampleLiveEventFile
    (progress_fullWrites 1000 (170, 187, 204)) sampleLive_buffers rfl (by decide) (by decide)

/-! ## C14, C17: how a stream begins -/

/-- C14, evaluated: with 14-byte buffers the constructor's frequency entry is copied past
the end of the buffer (the capacity check counts 13 bytes, the copy has 16); with 30-byte
buffers the constructor succeeds and `initialize` then copies the main thread entry past
the end of the events buffer; and where the copies stay in bounds the stream of a new
buffer is 16 bytes with the three stack bytes AA BB CC after the tag, not the 13-byte
frequency record of the specification. -/
theorem stream_start_overruns_or_pads :
    (construct samplePlatform 15 14 "out/0/7" 7).isNone = true ∧
    (construct samplePlatform 31 30 "out/0/events" 1).map
      (fun st => (st.currentBytesWritten, st.bufferSize)) = some (16, 30) ∧
    (initializeProfiler samplePlatform 31 Globals.startup
      { outputDirectory := "out", outputBufferLength := 30, useCompression := false }
      1 0).isNone = true ∧
    (construct samplePlatform 65 64 "out/0/7" 7).map (fun st => st.stream) =
      some [5, 170, 187, 204, 0, 0, 0, 0, 232, 3, 0, 0, 0, 0, 0, 0] ∧
    specValueRecord RawEntry.ENTRY_FREQUENCY 0 1000 =
      [5, 0, 0, 0, 0, 232, 3, 0, 0, 0, 0, 0, 0] := by
  decide

/-- C17, as stated, fails: after `initialize` on thread 4660 the main thread record of
the events stream reads back with handle field 4660 and value field 0. -/
theorem main_thread_record_value_field_is_zero :
    (initializeProfiler samplePlatform 65 Globals.startup exampleSettings 4660 0).map
      (fun g => readStream 8 g.eventStream) =
      some (some [.value 5 0 1000, .value 6 4660 0]) := by
  decide

/-- C17, amended: with a buffer capacity of at least 16 bytes other than 30 and 31 (so
that the two 16-byte copies stay inside the buffer; below 30 the buffer is flushed
between them, which needs destination writes that make progress), `initialize` returns,
and the events stream is then the frequency record followed by the main thread record,
each a 16-byte record with the padding bytes of its own `RawEntry`; the main thread
record carries the calling thread's id in its 4-byte handle field (`integralData`),
and its 8-byte value field is 0. -/
theorem main_thread_record_carries_tid_in_handle_field (env : Platform) (fuel : Nat)
    (g : Globals) (settings : Settings) (tid wallclock : Nat)
    (hcap : RoomFor 2 settings.outputBufferLength)
    (hflush : settings.outputBufferLength < 30 → Progress env ∧ 16 < fuel) :
    ∃ g1 ef, initializeProfiler env fuel g settings tid wallclock = some g1 ∧
      g1.eventFile = some ef ∧
      g1.eventStream = valueRecords env ef.outputFile.path 0
        [(RawEntry.ENTRY_FREQUENCY, 0, env.frequency),
          (RawEntry.ENTRY_MAIN_THREAD_IDENTIFIER, tid, 0)] ∧
      readStream 3 g1.eventStream =
        some [.value RawEntry.ENTRY_FREQUENCY 0 (env.frequency % 2 ^ 64),
          .value RawEntry.ENTRY_MAIN_THREAD_IDENTIFIER (tid % 2 ^ 32) 0] := by
  obtain ⟨g1, ef, hi, hef, hs, _⟩ :=
    initializeProfiler_spec env fuel g settings tid wallclock hcap hflush
  have hes : g1.eventStream = valueRecords env ef.outputFile.path 0
      [(RawEntry.ENTRY_FREQUENCY, 0, env.frequency),
        (RawEntry.ENTRY_MAIN_THREAD_IDENTIFIER, tid, 0)] := by
    simp only [Globals.eventStream, hef, hs]
  refine ⟨g1, ef, hi, hef, hes, ?_⟩
  have hread := readStream_valueRecords env ef.outputFile.path
    [(RawEntry.ENTRY_FREQUENCY, 0, env.frequency),
      (RawEntry.ENTRY_MAIN_THREAD_IDENTIFIER, tid, 0)] 0 1 []
    (by
      intro r hr
      rcases List.mem_cons.mp hr with h | h
      · subst h; simp [RawEntry.ENTRY_FREQUENCY]
      · rcases List.mem_cons.mp h with h2 | h2
        · subst h2; simp [RawEntry.ENTRY_MAIN_THREAD_IDENTIFIER]
        · cases h2)
  rw [hes]
  simpa [readStream, Record.ofFields] using hread

/-- Witness of the amended C17: `initialize` on thread 4660 with 46-byte buffers, on a
platform where the first `RawEntry` of a stream has padding 00 00 00 and the later ones
have 27 FF E3. -/
theorem main_thread_record_carries_tid_in_handle_field_witness :
    ∃ g1 ef, initializeProfiler variedStackPlatform 65 Globals.startup
        { outputDirectory := "out", outputBufferLength := 46, useCompression := false }
        4660 0 = some g1 ∧
      g1.eventFile = some ef ∧
      g1.eventStream = valueRecords variedStackPlatform ef.outputFile.path 0
        [(RawEntry.ENTRY_FREQUENCY, 0, variedStackPlatform.frequency),
          (RawEntry.ENTRY_MAIN_THREAD_IDENTIFIER, 4660, 0)] ∧
      readStream 3 g1.eventStream =
        some [.value RawEntry.ENTRY_FREQUENCY 0 (variedStackPlatform.frequency % 2 ^ 64),
          .value RawEntry.ENTRY_MAIN_THREAD_IDENTIFIER (4660 % 2 ^ 32) 0] :=
  main_thread_record_carries_tid_in_handle_field variedStackPlatform 65 Globals.startup
    { outputDirectory := "out", outputBufferLength := 46, useCompression := false } 4660 0
    ⟨by decide, Or.inr (by decide)⟩ (fun h => absurd h (by decide))

/-! ## C18: the capacity check and the lock -/

theorem write_eq_predict_append (env : Platform) (fuel : Nat) (st : ThreadProfiler)
    (entry : RawEntry) :
    write env fuel st entry =
      match predictedBytes entry with
      | none => none
      | some bytes =>
        match predictWriteEntry env fuel st bytes with
        | none => none
        | some st0 => appendEntry st0 entry := by
  by_cases hid : entry.type = RawEntry.ENTRY_FUNCTION_IDENTIFIER ∨
      entry.type = RawEntry.ENTRY_EVENT_IDENTIFIER
  · cases hv : entry.variantData with
    | time t => simp [write, predictedBytes, hid, hv]
    | name chars => simp only [write, predictedBytes, appendEntry, hid, hv, ↓reduceIte]
  · simp only [write, predictedBytes, appendEntry, hid, ↓reduceIte]

theorem runAlone_append (env : Platform) (fuel tid : Nat) (entry : RawEntry)
    (st : ThreadProfiler) (n : Nat) :
    runAlone env fuel (n + 2) { tid := tid, entry := entry, pc := .appendLock }
      { buffer := st, owner := none } = appendEntry st entry := by
  cases h : appendEntry st entry <;> cases n <;> simp [runAlone, stepWrite, h]

/-- The steps of `stepWrite`, run by one thread alone, are `write`. -/
theorem runAlone_eq_write (env : Platform) (fuel tid : Nat) (entry : RawEntry)
    (st : ThreadProfiler) :
    runAlone env fuel 5 { tid := tid, entry := entry, pc := .check }
      { buffer := st, owner := none } = write env fuel st entry := by
  rw [write_eq_predict_append]
  cases hb : predictedBytes entry with
  | none => simp [runAlone, stepWrite, hb]
  | some bytes =>
    by_cases hc : st.currentBytesWritten + 1 + 4 + bytes ≥ st.bufferSize
    · cases hf : unprotectedFlush env fuel st with
      | none =>
        simp [runAlone, stepWrite, hb, hc, predictWriteEntry, ThreadProfiler.flush, hf]
      | some b =>
        have h2 := runAlone_append env fuel tid entry b 0
        simp only [Nat.zero_add] at h2
        simp only [runAlone, stepWrite, hb, hc, predictWriteEntry, ThreadProfiler.flush, hf,
          ↓reduceIte, Option.isNone_none, reduceCtorEq]
        exact h2
    · have h4 := runAlone_append env fuel tid entry st 2
      simp only [runAlone, stepWrite, hb, hc, predictWriteEntry, ↓reduceIte, reduceCtorEq]
      exact h4

/-- C18, evaluated: threads 1 and 2 call `raiseGlobalEvent` while the 48-byte events
buffer holds 32 bytes.  After thread 1 has evaluated the capacity check (32 + 13 < 48, no
flush) `flushLock` is free and thread 1 has not reached its append; thread 2 can then
evaluate its own check on the same cursor; thread 1 appends (cursor 48) and releases the
lock; thread 2 takes the lock, about to append at cursor 48 on the strength of a check
made at cursor 32; its copy then runs past the end of the buffer.  When the two calls
run one after the other, the second one flushes first and both records fit. -/
theorem capacity_check_is_outside_the_lock :
    (runSchedule samplePlatform 49 [true] raceStart).summary =
      some (32, 0, none, .appendLock, .check) ∧
    (runSchedule samplePlatform 49 [true, false] raceStart).summary =
      some (32, 0, none, .appendLock, .appendLock) ∧
    (runSchedule samplePlatform 49 [true, false, true, true, false] raceStart).summary =
      some (48, 0, some 2, .done, .appendBody) ∧
    (runSchedule samplePlatform 49 [true, false, true, true, false, false]
      raceStart).isUndefined = true ∧
    (runSchedule samplePlatform 49 [true, true, true, false, false, false, false, false]
      raceStart).summary = some (16, 48, none, .done, .done) :=
  ⟨by decide, by decide, by decide, by decide, by decide⟩

/-! ## C19: kind tags -/

/-- C19, evaluated: the seven kind tags are 0 to 6 and are the first byte of the record;
with the same bytes on the stack, `enter`, `leave` and `raise` for handle 1 and tick 5
append records that differ in the tag only (2, 3, 4); but bytes 1 to 3 of each record
are whatever the stack held, so a `leave` record built over other stack bytes (DD EE FF)
differs from the `enter` record in those bytes as well. -/
theorem enter_leave_raise_records :
    [RawEntry.ENTRY_FUNCTION_IDENTIFIER, RawEntry.ENTRY_EVENT_IDENTIFIER,
      RawEntry.ENTRY_FUNCTION_ENTER, RawEntry.ENTRY_FUNCTION_LEAVE, RawEntry.ENTRY_EVENT,
      RawEntry.ENTRY_FREQUENCY, RawEntry.ENTRY_MAIN_THREAD_IDENTIFIER] =
      [0, 1, 2, 3, 4, 5, 6] ∧
    (enter samplePlatform 1 (fresh samplePlatform 64 "out/0/7" 7) 1 5).map
      (fun st => st.pending) = some [2, 170, 187, 204, 1, 0, 0, 0, 5, 0, 0, 0, 0, 0, 0, 0] ∧
    (leave samplePlatform 1 (fresh samplePlatform 64 "out/0/7" 7) 1 5).map
      (fun st => st.pending) = some [3, 170, 187, 204, 1, 0, 0, 0, 5, 0, 0, 0, 0, 0, 0, 0] ∧
    (raise samplePlatform 1 (fresh samplePlatform 64 "out/0/7" 7) 1 5).map
      (fun st => st.pending) = some [4, 170, 187, 204, 1, 0, 0, 0, 5, 0, 0, 0, 0, 0, 0, 0] ∧
    (leave otherStackPlatform 1 (fresh samplePlatform 64 "out/0/7" 7) 1 5).map
      (fun st => st.pending) = some [3, 221, 238, 255, 1, 0, 0, 0, 5, 0, 0, 0, 0, 0, 0, 0] := by
  decide

end Engine.Profiler
